import Mathlib

/-!
# voidnsrun: a shallow embedding of `voidnsrun.c`

`voidnsrun` unshares the mount namespace, bind-mounts a few directories of an
alternate root over the real root, drops root and executes a program.

The embedding keeps the control flow of the C source.  What the program sees of
the outside world is made explicit:

* C strings are lists of characters (`CStr`);
* the operating system is a record of functions `Kernel σ` over an abstract
  system state `σ`: `stat` only reads the state, `unshare` and `mount` either
  fail with an `errno` or produce a new state, `setreuid`, `setregid` and
  `execvp` either fail with an `errno` or succeed;
* the credentials of the process are an explicit `Creds` record, updated by a
  successful `setreuid` / `setregid` as setreuid(2) documents;
* `getopt(3)` is libc, not part of the program: a run receives the successive
  values `getopt` returns (option character and `optarg`) and the final
  `optind`;
* every system call and every write to stdout / stderr is recorded, in order, in
  a trace of `Event`s.
-/

namespace Voidnsrun

/-! ## Data model -/

/-- A C string: the characters before the terminating NUL. -/
abbrev CStr := List Char

/-- The value of `strlen(s)`. Lengths of strings resident in memory cannot make
the `size_t` sum in `mountlist` wrap, so lengths are plain naturals. -/
def strlen (s : CStr) : Nat := s.length

/-- The constant `PATH_MAX` of `linux/limits.h`. -/
def PATH_MAX : Nat := 4096

/-- The constant `USERMOUNTS_MAX` (line 16). -/
def USERMOUNTS_MAX : Nat := 8

/-- The `errno` value of "No such file or directory". -/
def ENOENT : Nat := 2

/-- The result of `stat(path, &st)`: `ok isDir` when it returned 0, with
`isDir = S_ISDIR(st.st_mode)`; `fail errno` when it returned -1. -/
inductive StatRes
  | ok (isDir : Bool)
  | fail (errno : Nat)
  deriving DecidableEq, Repr

/-- The result of a system call that returns 0 or -1 (with `errno`). -/
inductive Ret
  | ok
  | err (errno : Nat)
  deriving DecidableEq, Repr

/-- The messages the program writes to stderr, one constructor per `ERROR`
call site. -/
inductive Diag
  /-- Line 26, "stat: %s\n" with `strerror(errno)`. -/
  | statFailed (errno : Nat)
  /-- Line 54, "error: path %s%s is too large.\n". -/
  | pathTooLarge (dirptr mountpoint : CStr)
  /-- Line 63, "error: source mount dir %s does not exists.\n". -/
  | sourceMissing (buf : CStr)
  /-- Line 67, "error: mountpoint %s does not exists.\n". -/
  | mountpointMissing (mountpoint : CStr)
  /-- Line 71, "mount: failed to mount %s: %s\n". -/
  | mountFailed (mountpoint : CStr) (errno : Nat)
  /-- Line 126, "error: only up to %d user mounts allowed.\n". -/
  | tooManyUserMounts
  /-- Line 139, "error: environment variable %s not found.\n". -/
  | envNotFound
  /-- Line 145, "error: %s is not a directory.\n". -/
  | notADirectory (dir : CStr)
  /-- Line 154, "unshare: %s\n". -/
  | unshareFailed (errno : Nat)
  /-- Line 179, "setreuid: %s\n". -/
  | setreuidFailed (errno : Nat)
  /-- Line 185, "setregid: %s\n". -/
  | setregidFailed (errno : Nat)
  /-- Line 192, "execvp(%s): %s\n". -/
  | execvpFailed (file : CStr) (errno : Nat)
  deriving DecidableEq, Repr

/-- What the program prints to stdout: the help text of `usage` or the
version. -/
inductive Out
  | usage
  | version
  deriving DecidableEq, Repr

/-- One observable step of a run: a system call with its arguments and result,
or a write to a standard stream. -/
inductive Event
  | stat (path : CStr) (r : StatRes)
  | stderr (d : Diag)
  | stdout (o : Out)
  | unshare (r : Ret)
  | mount (source target : CStr) (r : Ret)
  | setreuid (ruid euid : Nat) (r : Ret)
  | setregid (rgid egid : Nat) (r : Ret)
  | execvp (file : CStr) (args : List CStr) (r : Ret)
  deriving DecidableEq, Repr

/-- A user or group id the kernel can hold: `(uid_t)-1 = 4294967295` is not an
id, it is the "leave unchanged" argument of `setreuid` / `setregid`. -/
abbrev Id := Fin 4294967295

/-- The process credentials: real, effective and saved user and group ids. -/
structure Creds where
  ruid : Id
  euid : Id
  suid : Id
  rgid : Id
  egid : Id
  sgid : Id
  deriving DecidableEq, Repr

/-- The argument `(uid_t)-1` / `(gid_t)-1`. -/
def NO_ID : Nat := 4294967295

/-- The id after a set call with argument `arg`: unchanged when `arg` is
`(uid_t)-1`, else `arg`. -/
def newId (old : Id) (arg : Nat) : Id :=
  if h : arg < 4294967295 then ⟨arg, h⟩ else old

/-- The credentials after a successful `setreuid(ruid, euid)`, as setreuid(2)
states it: an argument of -1 leaves that id unchanged; if the real id is set, or
the effective id is set to a value other than the previous real id, the saved id
becomes the new effective id. -/
def Creds.setreuid (c : Creds) (ruid euid : Nat) : Creds :=
  { c with
    ruid := newId c.ruid ruid
    euid := newId c.euid euid
    suid := if ruid ≠ NO_ID ∨ (euid ≠ NO_ID ∧ euid ≠ c.ruid.val)
            then newId c.euid euid else c.suid }

/-- The credentials after a successful `setregid(rgid, egid)`: the same rule on
the group ids. -/
def Creds.setregid (c : Creds) (rgid egid : Nat) : Creds :=
  { c with
    rgid := newId c.rgid rgid
    egid := newId c.egid egid
    sgid := if rgid ≠ NO_ID ∨ (egid ≠ NO_ID ∧ egid ≠ c.rgid.val)
            then newId c.egid egid else c.sgid }

/-- The operating system as the program uses it, over an abstract system state
`σ` (file system, mount table, whatever decides the outcome of a call). -/
structure Kernel (σ : Type) where
  /-- The call `stat(path, &st)`; it does not change the state. -/
  stat : σ → CStr → StatRes
  /-- The call `unshare(CLONE_NEWNS)`: an `errno`, or the state inside the new
  namespace. -/
  unshare : σ → Except Nat σ
  /-- The call `mount(source, target, NULL, MS_BIND|MS_REC, NULL)`: an `errno`,
  or the state with the bind mount in place. -/
  mount : σ → CStr → CStr → Except Nat σ
  /-- Whether `setreuid(ruid, euid)` succeeds. -/
  setreuid : σ → Creds → Nat → Nat → Ret
  /-- Whether `setregid(rgid, egid)` succeeds. -/
  setregid : σ → Creds → Nat → Nat → Ret
  /-- Whether `execvp(file, argv)` succeeds (and so never returns). -/
  execvp : σ → Creds → CStr → List CStr → Ret

/-! ## `isdir` (lines 21-28) -/

/-- The function `isdir`: the boolean it returns and what it did. It calls
`stat`, writes "stat: ..." to stderr whenever `stat` returned -1, and returns
`result == 0 && S_ISDIR(st.st_mode)`. -/
def isdir {σ : Type} (K : Kernel σ) (s : σ) (path : CStr) : Bool × List Event :=
  match K.stat s path with
  | .fail e => (false, [.stat path (.fail e), .stderr (.statFailed e)])
  | .ok d => (d, [.stat path (.ok d)])

/-! ## `mountlist` (lines 43-77) -/

/-- What a call of `mountlist` yields: the `bool` it returns, or undefined
behaviour because `strcpy` / `strcat` wrote past the end of `buf[PATH_MAX]`. -/
inductive MRes
  | ret (b : Bool)
  | overflow
  deriving DecidableEq, Repr

/-- A finished call of `mountlist`: its result, the system state it leaves and
the events it produced. -/
structure MRun (σ : Type) where
  res : MRes
  state : σ
  trace : List Event

/-- The same call with the events `ev` in front of its trace. -/
def MRun.after {σ : Type} (r : MRun σ) (ev : List Event) : MRun σ :=
  { r with trace := ev ++ r.trace }

/-- The function `mountlist`; `mountpoints` is the array of `len` strings. For
each entry in order: the length check of line 53, the copy into `buf`
(`strlen(dirptr) + strlen(mountpoints[i]) + 1` bytes into `PATH_MAX`), `isdir`
of the source with the `ignore_missing` skip, `isdir` of the mount point, the
bind mount. The first failure returns `false`. -/
def mountlist {σ : Type} (K : Kernel σ) (dirptr : CStr) (dirlen : Nat) :
    List CStr → Bool → σ → MRun σ
  | [], _, s => ⟨.ret true, s, []⟩
  | mp :: rest, ignore_missing, s =>
    if dirlen + strlen mp ≥ PATH_MAX then
      ⟨.ret false, s, [.stderr (.pathTooLarge dirptr mp)]⟩
    else if PATH_MAX < strlen dirptr + strlen mp + 1 then
      ⟨.overflow, s, []⟩
    else
      let buf := dirptr ++ mp
      let d1 := isdir K s buf
      if d1.1 = false then
        if ignore_missing = true then
          (mountlist K dirptr dirlen rest ignore_missing s).after d1.2
        else
          ⟨.ret false, s, d1.2 ++ [.stderr (.sourceMissing buf)]⟩
      else
        let d2 := isdir K s mp
        if d2.1 = false then
          ⟨.ret false, s, d1.2 ++ d2.2 ++ [.stderr (.mountpointMissing mp)]⟩
        else
          match K.mount s buf mp with
          | .error e =>
            ⟨.ret false, s,
              d1.2 ++ d2.2 ++ [.mount buf mp (.err e), .stderr (.mountFailed mp e)]⟩
          | .ok s1 =>
            (mountlist K dirptr dirlen rest ignore_missing s1).after
              (d1.2 ++ d2.2 ++ [.mount buf mp .ok])

/-! ## `isxbpscommand` (lines 79-95) -/

/-- The function `strrchr(s, c)` for a character `c` other than NUL: the suffix
of `s` that starts at the last occurrence of `c`, or `none` (a null pointer)
when `c` does not occur. -/
def strrchr : CStr → Char → Option CStr
  | [], _ => none
  | x :: xs, c =>
    match strrchr xs c with
    | some r => some r
    | none => if x = c then some (x :: xs) else none

/-- The array `commands` of `isxbpscommand`. -/
def commands : List CStr :=
  ["/xbps-install".toList, "/xbps-remove".toList, "/xbps-reconfigure".toList]

/-- The `for` loop of `isxbpscommand` over the entries of `commands` still to
visit: `strcmp(s, command+1)`, then `strrchr(s, '/')` and `strcmp(slash,
command)`. -/
def isxbpscommandLoop (s : CStr) : List CStr → Bool
  | [] => false
  | command :: rest =>
    if s = command.tail then true
    else
      match strrchr s '/' with
      | some slash => if slash = command then true else isxbpscommandLoop s rest
      | none => isxbpscommandLoop s rest

/-- The function `isxbpscommand`. -/
def isxbpscommand (s : CStr) : Bool :=
  isxbpscommandLoop s commands

/-- The array `mountpoints` of `main` (lines 159-166) for the program `prog`. -/
def mountpoints (prog : CStr) : List CStr :=
  if isxbpscommand prog = true then
    ["/usr".toList, "/var".toList, "/etc".toList]
  else
    ["/usr".toList, "/var/db/xbps".toList, "/etc/xbps.d".toList]

/-! ## `main` (lines 97-197) -/

/-- What `main` receives besides the system: the argument vector (as `getopt`
leaves it; `argv[argc]` is the null pointer), the values
`getopt(argc, argv, "vhm:r:")` returns one after the other before it returns -1
(the option character and `optarg`), the value of `optind` at that point, and
`getenv("VOIDNSRUN_DIR")`. What `getopt` itself prints for an option it rejects
is libc output and not part of the trace. -/
structure Env where
  argv : List CStr
  getopt : List (Char × CStr)
  optind : Nat
  VOIDNSRUN_DIR : Option CStr

/-- How the option loop ends: `main` returns from inside it, or `getopt` has
returned -1 with `dir` and `usermounts` (its length is `usermounts_num`) set. -/
inductive Opts
  | exit (status : Int) (trace : List Event)
  | parsed (dir : Option CStr) (usermounts : List CStr)
  deriving DecidableEq, Repr

/-- The `while ((c = getopt(...)) != -1)` loop of `main` (lines 110-133) over
the values `getopt` returns, from the current `dir` and `usermounts`. -/
def optloop : List (Char × CStr) → Option CStr → List CStr → Opts
  | [], dir, usermounts => .parsed dir usermounts
  | (c, optarg) :: rest, dir, usermounts =>
    if c = 'v' then .exit 0 [.stdout .version]
    else if c = 'h' then .exit 0 [.stdout .usage]
    else if c = 'r' then optloop rest (some optarg) usermounts
    else if c = 'm' then
      if usermounts.length < USERMOUNTS_MAX then
        optloop rest dir (usermounts ++ [optarg])
      else .exit 1 [.stderr .tooManyUserMounts]
    else if c = '?' then .exit 1 []
    else optloop rest dir usermounts

/-- The alternate root `main` settles on (lines 136-137): the argument of the
last `-r` option, else the value of the environment variable, else a null
pointer. -/
def altroot (optdir envdir : Option CStr) : Option CStr :=
  match optdir with
  | some d => some d
  | none => envdir

/-- How a run of `main` ends: it returns a status, the process image has been
replaced by `execvp`, or the behaviour is undefined (a null or out-of-bounds
`argv[optind]` is handed to `strcmp`, or `buf` overflowed). -/
inductive Outcome
  | ret (status : Int)
  | replaced
  | undefined
  deriving DecidableEq, Repr

/-- A finished run of `main`: how it ended, the system state and credentials it
leaves, and everything it did, in order. -/
structure Run (σ : Type) where
  outcome : Outcome
  state : σ
  creds : Creds
  trace : List Event

/-- The function `main`, started in system state `s` with credentials `c`.
`getuid()` and `getgid()` return the real ids of `c`. A null `argv[optind]`
reaches `strcmp` inside `isxbpscommand`, which is undefined behaviour. `execvp`
returns only when it failed, and then returns -1, so the `return 0` of line 196
is never reached. -/
def main {σ : Type} (K : Kernel σ) (env : Env) (s : σ) (c : Creds) : Run σ :=
  if env.argv.length < 2 then ⟨.ret 0, s, c, [.stdout .usage]⟩
  else
  match optloop env.getopt none [] with
  | .exit status tr => ⟨.ret status, s, c, tr⟩
  | .parsed optdir usermounts =>
  match altroot optdir env.VOIDNSRUN_DIR with
  | none => ⟨.ret 1, s, c, [.stderr .envNotFound]⟩
  | some dir =>
  let d := isdir K s dir
  if d.1 = false then ⟨.ret 1, s, c, d.2 ++ [.stderr (.notADirectory dir)]⟩
  else
  let dirlen := strlen dir
  match K.unshare s with
  | .error e => ⟨.ret 1, s, c, d.2 ++ [.unshare (.err e), .stderr (.unshareFailed e)]⟩
  | .ok s1 =>
  match env.argv.get? env.optind with
  | none => ⟨.undefined, s1, c, d.2 ++ [.unshare .ok]⟩
  | some prog =>
  let m1 := mountlist K dir dirlen (mountpoints prog) true s1
  let t1 := d.2 ++ [.unshare .ok] ++ m1.trace
  match m1.res with
  | .overflow => ⟨.undefined, m1.state, c, t1⟩
  | .ret false => ⟨.ret 1, m1.state, c, t1⟩
  | .ret true =>
  let m2 := if usermounts.length > 0
    then mountlist K dir dirlen usermounts false m1.state
    else ⟨.ret true, m1.state, []⟩
  let t2 := t1 ++ m2.trace
  match m2.res with
  | .overflow => ⟨.undefined, m2.state, c, t2⟩
  | .ret false => ⟨.ret 1, m2.state, c, t2⟩
  | .ret true =>
  let uid := c.ruid.val
  let gid := c.rgid.val
  match K.setreuid m2.state c uid uid with
  | .err e =>
    ⟨.ret 1, m2.state, c, t2 ++ [.setreuid uid uid (.err e), .stderr (.setreuidFailed e)]⟩
  | .ok =>
  let c1 := c.setreuid uid uid
  match K.setregid m2.state c1 gid gid with
  | .err e =>
    ⟨.ret 1, m2.state, c1,
      t2 ++ [.setreuid uid uid .ok, .setregid gid gid (.err e), .stderr (.setregidFailed e)]⟩
  | .ok =>
  let c2 := c1.setregid gid gid
  let args := env.argv.drop env.optind
  match K.execvp m2.state c2 prog args with
  | .err e =>
    ⟨.ret 1, m2.state, c2,
      t2 ++ [.setreuid uid uid .ok, .setregid gid gid .ok,
             .execvp prog args (.err e), .stderr (.execvpFailed prog e)]⟩
  | .ok =>
    ⟨.replaced, m2.state, c2,
      t2 ++ [.setreuid uid uid .ok, .setregid gid gid .ok, .execvp prog args .ok]⟩

/-! ## Notions the statements use -/

/-- The basename of a program string as the specification words it: the text
after the last '/' of `s`, or all of `s` when it contains no '/'. -/
def basename (s : CStr) : CStr :=
  (s.reverse.takeWhile (fun ch => ch ≠ '/')).reverse

/-- The three package-management command names. -/
def xbpsNames : List CStr :=
  ["xbps-install".toList, "xbps-remove".toList, "xbps-reconfigure".toList]

/-- The bind mounts a trace attempts, in order, as (source, target) pairs. -/
def mountsOf (tr : List Event) : List (CStr × CStr) :=
  tr.filterMap fun e =>
    match e with
    | .mount source target _ => some (source, target)
    | _ => none

/-- The messages a trace writes to stderr, in order. -/
def stderrOf (tr : List Event) : List Diag :=
  tr.filterMap fun e =>
    match e with
    | .stderr d => some d
    | _ => none

/-- Whether an event is one of the calls `unshare`, `mount`, `setreuid`,
`setregid`, `execvp`. -/
def Event.isCall : Event → Bool
  | .unshare _ => true
  | .mount _ _ _ => true
  | .setreuid _ _ _ => true
  | .setregid _ _ _ => true
  | .execvp _ _ _ => true
  | _ => false

/-- Whether an event is a call of `execvp`. -/
def Event.isExecvp : Event → Bool
  | .execvp _ _ _ => true
  | _ => false

/-- Whether an event is a call of the privilege drop or of the hand-off:
`setreuid`, `setregid`, `execvp`. -/
def Event.isDropOrExec : Event → Bool
  | .setreuid _ _ _ => true
  | .setregid _ _ _ => true
  | .execvp _ _ _ => true
  | _ => false

/-- The trace `front` is that of a run of `main` on `env` from state `s` up to
the privilege drop: the option loop ran to its end and gave the user mounts, the
alternate root is `dir`, the program `argv[optind]` is `prog`; the run checked
`dir` with `isdir`, then `unshare` succeeded, then the whole fixed batch for
`prog` succeeded, then the whole user batch succeeded (an empty user batch does
nothing and succeeds). -/
def MountsApplied {σ : Type} (K : Kernel σ) (env : Env) (s : σ) (prog : CStr)
    (front : List Event) : Prop :=
  ∃ (optdir : Option CStr) (usermounts : List CStr) (dir : CStr) (s1 : σ),
    optloop env.getopt none [] = .parsed optdir usermounts ∧
    altroot optdir env.VOIDNSRUN_DIR = some dir ∧
    env.argv.get? env.optind = some prog ∧
    K.unshare s = .ok s1 ∧
    (mountlist K dir (strlen dir) (mountpoints prog) true s1).res = .ret true ∧
    (mountlist K dir (strlen dir) usermounts false
      (mountlist K dir (strlen dir) (mountpoints prog) true s1).state).res = .ret true ∧
    front = (isdir K s dir).2 ++ [.unshare .ok] ++
      (mountlist K dir (strlen dir) (mountpoints prog) true s1).trace ++
      (mountlist K dir (strlen dir) usermounts false
        (mountlist K dir (strlen dir) (mountpoints prog) true s1).state).trace

/-- The arguments of the `-m` options among the values `getopt` returned, in
order of appearance. -/
def userMountArgs (opts : List (Char × CStr)) : List CStr :=
  (opts.filter fun o => o.1 = 'm').map fun o => o.2

/-- Whether the option character makes `main` return from the option loop at
once: `v`, `h` or `?`. -/
def leavesLoop (ch : Char) : Bool :=
  ch = 'v' || ch = 'h' || ch = '?'

/-- A path of 4093 characters: a slash and 4092 letters. -/
def longPath : CStr := '/' :: List.replicate 4092 'a'

/-- The bind mount of `dir ++ p` onto `p`. -/
def bindOf (dir p : CStr) : CStr × CStr := (dir ++ p, p)

/-- A concrete system for the scenarios: exactly the paths in `dirs` are
directories and nothing else exists, every bind mount succeeds and is appended
to the state (the list of mounts made), and `unshare`, `setreuid`, `setregid`
and `execvp` succeed. -/
def plainKernel (dirs : List CStr) : Kernel (List (CStr × CStr)) where
  stat := fun _ p => if p ∈ dirs then .ok true else .fail ENOENT
  unshare := fun s => .ok s
  mount := fun s a b => .ok (s ++ [(a, b)])
  setreuid := fun _ _ _ _ => .ok
  setregid := fun _ _ _ _ => .ok
  execvp := fun _ _ _ _ => .ok

/-- The credentials of a set-uid, set-gid root binary started by user 1000 of
group 1000: real ids 1000, effective and saved ids 0. -/
def suidRoot : Creds :=
  { ruid := 1000, euid := 0, suid := 0, rgid := 1000, egid := 0, sgid := 0 }

/-- The directories of the scenarios: the alternate root `/alt` with every
source used below, and the mount points on the real root. `/alt/opt` is not
among them. -/
def scenarioDirs : List CStr :=
  ["/alt".toList, "/alt/usr".toList, "/alt/var".toList, "/alt/etc".toList,
   "/alt/var/db/xbps".toList, "/alt/etc/xbps.d".toList, "/alt/home/user/project".toList,
   "/usr".toList, "/var".toList, "/etc".toList, "/var/db/xbps".toList,
   "/etc/xbps.d".toList, "/home/user/project".toList]

/-- An alternate root that only has `/usr`: the directories `/alt`, `/alt/usr`
and `/usr`. -/
def sparseDirs : List CStr :=
  ["/alt".toList, "/alt/usr".toList, "/usr".toList]

/-- The command line `voidnsrun -r /alt /usr/bin/xbps-install -S`. -/
def envInstall : Env :=
  { argv := ["voidnsrun".toList, "-r".toList, "/alt".toList,
      "/usr/bin/xbps-install".toList, "-S".toList]
    getopt := [('r', "/alt".toList)]
    optind := 3
    VOIDNSRUN_DIR := none }

/-- The command line `voidnsrun -r /alt -m /home/user/project /usr/bin/vi
notes.txt`. -/
def envVi : Env :=
  { argv := ["voidnsrun".toList, "-r".toList, "/alt".toList, "-m".toList,
      "/home/user/project".toList, "/usr/bin/vi".toList, "notes.txt".toList]
    getopt := [('r', "/alt".toList), ('m', "/home/user/project".toList)]
    optind := 5
    VOIDNSRUN_DIR := none }

/-- The command line `voidnsrun -r /alt`: options, but no program. -/
def envNoProgram : Env :=
  { argv := ["voidnsrun".toList, "-r".toList, "/alt".toList]
    getopt := [('r', "/alt".toList)]
    optind := 3
    VOIDNSRUN_DIR := none }

/-- Nine `-m` options as `getopt` returns them. -/
def nineMounts : List (Char × CStr) :=
  [('m', "/m1".toList), ('m', "/m2".toList), ('m', "/m3".toList), ('m', "/m4".toList),
   ('m', "/m5".toList), ('m', "/m6".toList), ('m', "/m7".toList), ('m', "/m8".toList),
   ('m', "/m9".toList)]

/-- The command line `voidnsrun -m /m1 ... -m /m9 ls` with `VOIDNSRUN_DIR=/alt`. -/
def envNineMounts : Env :=
  { argv := ["voidnsrun".toList,
      "-m".toList, "/m1".toList, "-m".toList, "/m2".toList, "-m".toList, "/m3".toList,
      "-m".toList, "/m4".toList, "-m".toList, "/m5".toList, "-m".toList, "/m6".toList,
      "-m".toList, "/m7".toList, "-m".toList, "/m8".toList, "-m".toList, "/m9".toList,
      "ls".toList]
    getopt := nineMounts
    optind := 19
    VOIDNSRUN_DIR := some "/alt".toList }

/-- A directory path of 4084 characters: a slash and 4083 letters. Under it
`/usr` and `/etc/xbps.d` pass the length check and `/var/db/xbps` (4096
characters in all) does not. -/
def deepRoot : CStr := '/' :: List.replicate 4083 'a'

/-- The directories of the scenario under `deepRoot`: the root itself, its `/usr`
and `/etc/xbps.d`, and the three mount points of the narrow profile on the real
root. -/
def deepDirs : List CStr :=
  [deepRoot, deepRoot ++ "/usr".toList, deepRoot ++ "/etc/xbps.d".toList,
   "/usr".toList, "/var/db/xbps".toList, "/etc/xbps.d".toList]

/-- The command line `voidnsrun -r <deepRoot> /usr/bin/vi`. -/
def envDeep : Env :=
  { argv := ["voidnsrun".toList, "-r".toList, deepRoot, "/usr/bin/vi".toList]
    getopt := [('r', deepRoot)]
    optind := 3
    VOIDNSRUN_DIR := none }

/-! ## Proofs -/

section Proofs

variable {σ : Type}

/-! ### The program name (`isxbpscommand`) -/

/-- The basename of `x :: xs`, by cases on where the last slash is. -/
theorem basename_cons (x : Char) (xs : CStr) :
    basename (x :: xs) =
      if '/' ∈ xs then basename xs else if x = '/' then xs else x :: xs := by
  unfold basename
  rw [List.reverse_cons, List.takeWhile_append]
  by_cases h : '/' ∈ xs
  · have hne : (List.takeWhile (fun ch => decide (ch ≠ '/')) xs.reverse).length
        ≠ xs.reverse.length := by
      intro hlen
      have hall := (List.takeWhile_eq_self_iff).mp
        (List.Sublist.eq_of_length (List.takeWhile_sublist _) hlen)
      have := hall '/' (List.mem_reverse.mpr h)
      simp at this
    rw [if_neg hne, if_pos h]
  · have hall : ∀ a ∈ xs.reverse, (fun ch => decide (ch ≠ '/')) a = true := by
      intro a ha
      have : a ≠ '/' := fun e => h (e ▸ List.mem_reverse.mp ha)
      simpa using this
    have heq : List.takeWhile (fun ch => decide (ch ≠ '/')) xs.reverse = xs.reverse :=
      List.takeWhile_eq_self_iff.mpr hall
    rw [heq]
    by_cases hx : x = '/'
    · simp [h, hx, List.takeWhile]
    · simp [h, hx, List.takeWhile]

/-- The pointer `strrchr(s, '/')` is the slash in front of the basename. -/
theorem strrchr_slash (s : CStr) :
    strrchr s '/' = if '/' ∈ s then some ('/' :: basename s) else none := by
  induction s with
  | nil => simp [strrchr]
  | cons x xs ih =>
    rw [strrchr, ih, basename_cons]
    by_cases h : '/' ∈ xs
    · simp [h]
    · by_cases hx : x = '/'
      · simp [h, hx]
      · have : ¬ '/' = x := fun e => hx e.symm
        simp [h, hx, this]

/-- A string without a slash is its own basename. -/
theorem basename_of_no_slash (s : CStr) (h : '/' ∉ s) : basename s = s := by
  induction s with
  | nil => simp [basename]
  | cons x xs ih =>
    rw [basename_cons]
    have h1 : '/' ∉ xs := fun e => h (List.mem_cons_of_mem _ e)
    have h2 : ¬ x = '/' := fun e => h (e ▸ List.mem_cons_self _ _)
    simp [h1, h2]

/-- The loop of `isxbpscommand` answers whether the basename is one of the three
command names. -/
theorem isxbpscommand_iff (s : CStr) :
    isxbpscommand s = true ↔ basename s ∈ xbpsNames := by
  have c1 : "/xbps-install".toList = '/' :: "xbps-install".toList := by decide
  have c2 : "/xbps-remove".toList = '/' :: "xbps-remove".toList := by decide
  have c3 : "/xbps-reconfigure".toList = '/' :: "xbps-reconfigure".toList := by decide
  have n1 : '/' ∉ "xbps-install".toList := by decide
  have n2 : '/' ∉ "xbps-remove".toList := by decide
  have n3 : '/' ∉ "xbps-reconfigure".toList := by decide
  unfold isxbpscommand commands xbpsNames
  simp only [isxbpscommandLoop, strrchr_slash, c1, c2, c3, List.tail_cons]
  by_cases h : '/' ∈ s
  · have e1 : s ≠ "xbps-install".toList := fun e => n1 (e ▸ h)
    have e2 : s ≠ "xbps-remove".toList := fun e => n2 (e ▸ h)
    have e3 : s ≠ "xbps-reconfigure".toList := fun e => n3 (e ▸ h)
    simp only [h, if_true, e1, e2, e3, if_false]
    by_cases b1 : basename s = "xbps-install".toList
    · simp [b1]
    · by_cases b2 : basename s = "xbps-remove".toList
      · simp [b2]
      · by_cases b3 : basename s = "xbps-reconfigure".toList
        · simp [b3]
        · simp [b1, b2, b3]
  · rw [basename_of_no_slash s h]
    simp only [h, if_false]
    by_cases b1 : s = "xbps-install".toList
    · simp [b1]
    · by_cases b2 : s = "xbps-remove".toList
      · simp [b2]
      · by_cases b3 : s = "xbps-reconfigure".toList
        · simp [b3]
        · simp [b1, b2, b3]

/-- Claim C3: for every program string `s`, the fixed profile `main` chooses is
`/usr`, `/var`, `/etc` when the basename of `s` (the text after its last slash,
or all of `s`) is exactly one of `xbps-install`, `xbps-remove`,
`xbps-reconfigure`, and `/usr`, `/var/db/xbps`, `/etc/xbps.d` for every other
`s`; `isxbpscommand s` is true exactly when the basename is one of the three
names. -/
theorem mountpoints_by_basename (s : CStr) :
    (mountpoints s =
      if basename s ∈ xbpsNames then ["/usr".toList, "/var".toList, "/etc".toList]
      else ["/usr".toList, "/var/db/xbps".toList, "/etc/xbps.d".toList]) ∧
    (isxbpscommand s = true ↔ basename s ∈ xbpsNames) := by
  refine ⟨?_, isxbpscommand_iff s⟩
  unfold mountpoints
  by_cases h : basename s ∈ xbpsNames
  · rw [if_pos ((isxbpscommand_iff s).mpr h), if_pos h]
  · rw [if_neg (fun e => h ((isxbpscommand_iff s).mp e)), if_neg h]

/-! ### The bind mount batches (`isdir`, `mountlist`) -/

/-- An empty batch succeeds and does nothing. -/
theorem mountlist_nil (K : Kernel σ) (dir : CStr) (n : Nat) (ign : Bool) (s : σ) :
    mountlist K dir n [] ign s = ⟨.ret true, s, []⟩ := by
  simp [mountlist]

/-- Events put in front do not change the result. -/
theorem after_res (r : MRun σ) (ev : List Event) : (r.after ev).res = r.res := rfl
/-- Events put in front do not change the final state. -/
theorem after_state (r : MRun σ) (ev : List Event) : (r.after ev).state = r.state := rfl
/-- The trace with events put in front. -/
theorem after_trace (r : MRun σ) (ev : List Event) : (r.after ev).trace = ev ++ r.trace := rfl
/-- Putting events in front twice. -/
theorem after_after (r : MRun σ) (a b : List Event) :
    (r.after a).after b = r.after (b ++ a) := by
  simp [MRun.after, List.append_assoc]
/-- Putting no event in front. -/
theorem after_nil (r : MRun σ) : r.after [] = r := by
  simp [MRun.after]

/-- Processing `pre ++ rest` is processing `pre` and, when that succeeded,
processing `rest` from the state reached. -/
theorem mountlist_append (K : Kernel σ) (dir : CStr) (n : Nat) (ign : Bool)
    (pre rest : List CStr) (s : σ) :
    mountlist K dir n (pre ++ rest) ign s =
      if (mountlist K dir n pre ign s).res = .ret true then
        (mountlist K dir n rest ign (mountlist K dir n pre ign s).state).after
          (mountlist K dir n pre ign s).trace
      else mountlist K dir n pre ign s := by
  induction pre generalizing s with
  | nil => simp [mountlist, after_nil]
  | cons mp pre ih =>
    rw [List.cons_append]
    simp only [mountlist]
    split
    · simp
    · split
      · simp
      · split
        · split
          · rw [ih]
            simp only [after_res, after_state, after_trace]
            split
            · simp [after_after]
            · rfl
          · simp
        · split
          · simp
          · split
            · simp
            · rw [ih]
              simp only [after_res, after_state, after_trace]
              split
              · simp [after_after]
              · rfl

/-- The function `isdir` returns `false` exactly when `stat` did not succeed on a
directory. -/
theorem isdir_false_iff (K : Kernel σ) (s : σ) (p : CStr) :
    (isdir K s p).1 = false ↔ K.stat s p ≠ .ok true := by
  unfold isdir
  cases h : K.stat s p with
  | fail e => simp
  | ok d => cases d <;> simp

/-- What a call of `isdir` does: the `stat` call and, when `stat` failed, the
"stat: ..." message on stderr. -/
theorem isdir_events (K : Kernel σ) (s : σ) (p : CStr) :
    (∀ e, K.stat s p = .fail e →
      (isdir K s p).2 = [.stat p (.fail e), .stderr (.statFailed e)]) ∧
    (∀ d, K.stat s p = .ok d → (isdir K s p).2 = [.stat p (.ok d)]) := by
  unfold isdir
  constructor
  · intro e h
    rw [h]
  · intro d h
    rw [h]

/-- The function `isdir` returns `true` when `stat` succeeded on a directory. -/
theorem isdir_true (K : Kernel σ) (s : σ) (p : CStr) (h : K.stat s p = .ok true) :
    (isdir K s p).1 = true := by
  unfold isdir
  rw [h]

/-- The function `isdir` makes none of the calls `unshare`, `mount`, `setreuid`,
`setregid`, `execvp`. -/
theorem isdir_no_call (K : Kernel σ) (s : σ) (p : CStr) :
    ∀ e ∈ (isdir K s p).2, e.isCall = false := by
  unfold isdir
  cases h : K.stat s p with
  | fail e => simp [Event.isCall]
  | ok d => simp [Event.isCall]

/-- The mounts of a concatenation. -/
theorem mountsOf_append (a b : List Event) : mountsOf (a ++ b) = mountsOf a ++ mountsOf b := by
  simp [mountsOf, List.filterMap_append]

/-- The function `isdir` mounts nothing. -/
theorem mountsOf_isdir (K : Kernel σ) (s : σ) (p : CStr) : mountsOf (isdir K s p).2 = [] := by
  unfold isdir
  cases h : K.stat s p with
  | fail e => simp [mountsOf]
  | ok d => simp [mountsOf]

/-- Called with `dirlen = strlen(dirptr)`, `mountlist` never writes past the end
of `buf`. -/
theorem mountlist_no_overflow (K : Kernel σ) (dir : CStr) (mps : List CStr) (ign : Bool)
    (s : σ) : (mountlist K dir (strlen dir) mps ign s).res ≠ .overflow := by
  induction mps generalizing s with
  | nil => simp [mountlist]
  | cons mp rest ih =>
    simp only [mountlist]
    split
    · simp
    · split
      · omega
      · split
        · split
          · exact ih s
          · simp
        · split
          · simp
          · split
            · simp
            · exact ih _



/-- The stderr messages of a concatenation. -/
theorem stderrOf_append (a b : List Event) : stderrOf (a ++ b) = stderrOf a ++ stderrOf b := by
  simp [stderrOf, List.filterMap_append]

/-- What `isdir` writes to stderr: "stat: ..." exactly when `stat` failed. -/
theorem stderrOf_isdir (K : Kernel σ) (s : σ) (p : CStr) :
    stderrOf (isdir K s p).2 =
      match K.stat s p with
      | .fail e => [.statFailed e]
      | .ok _ => [] := by
  unfold isdir
  cases h : K.stat s p with
  | fail e => simp [stderrOf]
  | ok d => simp [stderrOf]

/-- Once the entries `pre` have been processed with success, the rest of the
batch is processed from the state reached. -/
theorem mountlist_at (K : Kernel σ) (dir : CStr) (n : Nat) (ign : Bool)
    (pre rest : List CStr) (s : σ)
    (hreach : (mountlist K dir n pre ign s).res = .ret true) :
    mountlist K dir n (pre ++ rest) ign s =
      (mountlist K dir n rest ign (mountlist K dir n pre ign s).state).after
        (mountlist K dir n pre ign s).trace := by
  rw [mountlist_append, if_pos hreach]

/-- An entry that fails the length check ends the batch at once. -/
theorem mountlist_cons_too_long (K : Kernel σ) (dir : CStr) (n : Nat) (ign : Bool)
    (mp : CStr) (rest : List CStr) (s : σ) (hlong : n + strlen mp ≥ PATH_MAX) :
    mountlist K dir n (mp :: rest) ign s =
      ⟨.ret false, s, [.stderr (.pathTooLarge dir mp)]⟩ := by
  simp only [mountlist, if_pos hlong]

/-- Without `ignore_missing`, an entry that fits and whose source is not a
directory ends the batch after its `isdir` call and the error message. -/
theorem mountlist_cons_missing_strict (K : Kernel σ) (dir mp : CStr) (rest : List CStr)
    (s : σ) (hfit : strlen dir + strlen mp < PATH_MAX)
    (hmiss : K.stat s (dir ++ mp) ≠ .ok true) :
    mountlist K dir (strlen dir) (mp :: rest) false s =
      ⟨.ret false, s, (isdir K s (dir ++ mp)).2 ++ [.stderr (.sourceMissing (dir ++ mp))]⟩ := by
  have h1 : ¬ (strlen dir + strlen mp ≥ PATH_MAX) := by omega
  have h2 : ¬ (PATH_MAX < strlen dir + strlen mp + 1) := by omega
  have h3 := (isdir_false_iff K s (dir ++ mp)).mpr hmiss
  simp [mountlist, h1, h2, h3]

/-- With `ignore_missing`, an entry that fits and whose source is not a directory
only contributes its `isdir` call. -/
theorem mountlist_cons_missing_skip (K : Kernel σ) (dir mp : CStr) (rest : List CStr)
    (s : σ) (hfit : strlen dir + strlen mp < PATH_MAX)
    (hmiss : K.stat s (dir ++ mp) ≠ .ok true) :
    mountlist K dir (strlen dir) (mp :: rest) true s =
      (mountlist K dir (strlen dir) rest true s).after (isdir K s (dir ++ mp)).2 := by
  have h1 : ¬ (strlen dir + strlen mp ≥ PATH_MAX) := by omega
  have h2 : ¬ (PATH_MAX < strlen dir + strlen mp + 1) := by omega
  have h3 := (isdir_false_iff K s (dir ++ mp)).mpr hmiss
  simp [mountlist, h1, h2, h3]

/-- The length of `longPath`. -/
theorem strlen_longPath : strlen longPath = 4093 := by
  simp only [longPath, strlen, List.length_cons, List.length_replicate]

/-- Claim C4, amended: when `mountlist` runs with `ignore_missing = false` and
reaches (after the entries `pre` succeeded) an entry `mp` whose source
`dir ++ mp` is not an existing directory, it returns `false`, leaves the system
as the earlier entries left it and attempts no mount for that entry or any later
one. When the path of the entry passes the length check
(`strlen(dir) + strlen(mp) < PATH_MAX`) the failure is the missing-source one:
after the entries before, the run consists of the `isdir` call of the source
(the `stat` call and, when `stat` failed, the "stat: ..." message) and the
"source mount dir ... does not exists" message. When it does not pass, the
failure is the path-too-long one: only the "path ... is too large" message,
without any `stat`. -/
theorem mountlist_missing_source_fails (K : Kernel σ) (dir : CStr) (pre : List CStr)
    (mp : CStr) (rest : List CStr) (s : σ)
    (hreach : (mountlist K dir (strlen dir) pre false s).res = .ret true)
    (hmiss : K.stat (mountlist K dir (strlen dir) pre false s).state (dir ++ mp) ≠ .ok true) :
    (mountlist K dir (strlen dir) (pre ++ mp :: rest) false s).res = .ret false ∧
    (mountlist K dir (strlen dir) (pre ++ mp :: rest) false s).state =
      (mountlist K dir (strlen dir) pre false s).state ∧
    mountsOf (mountlist K dir (strlen dir) (pre ++ mp :: rest) false s).trace =
      mountsOf (mountlist K dir (strlen dir) pre false s).trace ∧
    (mountlist K dir (strlen dir) (pre ++ mp :: rest) false s).trace =
      (mountlist K dir (strlen dir) pre false s).trace ++
        (if strlen dir + strlen mp ≥ PATH_MAX then [.stderr (.pathTooLarge dir mp)]
         else (isdir K (mountlist K dir (strlen dir) pre false s).state (dir ++ mp)).2 ++
           [.stderr (.sourceMissing (dir ++ mp))]) ∧
    (∀ e, K.stat (mountlist K dir (strlen dir) pre false s).state (dir ++ mp) = .fail e →
      (isdir K (mountlist K dir (strlen dir) pre false s).state (dir ++ mp)).2 =
        [.stat (dir ++ mp) (.fail e), .stderr (.statFailed e)]) ∧
    (∀ d, K.stat (mountlist K dir (strlen dir) pre false s).state (dir ++ mp) = .ok d →
      (isdir K (mountlist K dir (strlen dir) pre false s).state (dir ++ mp)).2 =
        [.stat (dir ++ mp) (.ok d)]) := by
  have hev := isdir_events K (mountlist K dir (strlen dir) pre false s).state (dir ++ mp)
  refine ⟨?_, ?_, ?_, ?_, hev.1, hev.2⟩
  all_goals
    rw [mountlist_at K dir (strlen dir) false pre (mp :: rest) s hreach]
    by_cases hlong : strlen dir + strlen mp ≥ PATH_MAX
    · rw [mountlist_cons_too_long K dir (strlen dir) false mp rest _ hlong]
      simp [MRun.after, mountsOf_append, mountsOf, hlong]
    · rw [mountlist_cons_missing_strict K dir mp rest _ (by omega) hmiss]
      simp only [MRun.after, mountsOf_append, mountsOf_isdir]
      try simp [mountsOf, hlong]

/-- Counterexample to claim C4 as stated: under the alternate root `longPath`
(4093 characters) the source `longPath ++ "/usr"` is not an existing directory
and `ignore_missing` is not set; `mountlist` fails, but not with the
missing-source failure: all it does is write the "path ... is too large"
message, the source is never tested. -/
theorem long_path_fails_as_too_large :
    (plainKernel []).stat [] (longPath ++ "/usr".toList) ≠ .ok true ∧
    (mountlist (plainKernel []) longPath (strlen longPath) ["/usr".toList] false []).res
      = .ret false ∧
    (mountlist (plainKernel []) longPath (strlen longPath) ["/usr".toList] false []).trace
      = [.stderr (.pathTooLarge longPath "/usr".toList)] ∧
    Diag.sourceMissing (longPath ++ "/usr".toList) ∉
      stderrOf (mountlist (plainKernel []) longPath (strlen longPath)
        ["/usr".toList] false []).trace := by
  have hlong : strlen longPath + strlen "/usr".toList ≥ PATH_MAX := by
    rw [strlen_longPath]
    decide
  rw [mountlist_cons_too_long _ _ _ _ _ _ _ hlong]
  refine ⟨?_, rfl, rfl, ?_⟩
  · simp [plainKernel]
  · simp [stderrOf]

/-- Claim C6: with `dirlen = strlen(dirptr)`, when `mountlist` reaches an entry
`mp` with `dirlen + strlen(mp) >= PATH_MAX` it returns `false` having done
nothing for that entry but write the "too large" message: no `stat`, no `mount`,
no copy into `buf`. And no batch at all ever writes past the end of `buf`. -/
theorem mountlist_path_too_long (K : Kernel σ) (dir : CStr) (pre : List CStr)
    (mp : CStr) (rest : List CStr) (ign : Bool) (s : σ)
    (hreach : (mountlist K dir (strlen dir) pre ign s).res = .ret true)
    (hlong : strlen dir + strlen mp ≥ PATH_MAX) :
    mountlist K dir (strlen dir) (pre ++ mp :: rest) ign s =
      ⟨.ret false, (mountlist K dir (strlen dir) pre ign s).state,
        (mountlist K dir (strlen dir) pre ign s).trace ++
          [.stderr (.pathTooLarge dir mp)]⟩ ∧
    ∀ (mps : List CStr) (ign0 : Bool) (s0 : σ),
      (mountlist K dir (strlen dir) mps ign0 s0).res ≠ .overflow := by
  refine ⟨?_, fun mps ign0 s0 => mountlist_no_overflow K dir mps ign0 s0⟩
  rw [mountlist_at K dir (strlen dir) ign pre (mp :: rest) s hreach,
    mountlist_cons_too_long K dir (strlen dir) ign mp rest _ hlong]
  rfl

/-- A batch with `ignore_missing` whose entries all fit and all miss their source
succeeds, changes nothing and mounts nothing. -/
theorem mountlist_all_missing (K : Kernel σ) (dir : CStr) (mps : List CStr) (s : σ)
    (hall : ∀ m ∈ mps, strlen dir + strlen m < PATH_MAX ∧ K.stat s (dir ++ m) ≠ .ok true) :
    (mountlist K dir (strlen dir) mps true s).res = .ret true ∧
    (mountlist K dir (strlen dir) mps true s).state = s ∧
    mountsOf (mountlist K dir (strlen dir) mps true s).trace = [] := by
  induction mps with
  | nil => simp [mountlist, mountsOf]
  | cons m rest ih =>
    have hm := hall m (List.mem_cons_self _ _)
    have hrest := ih (fun x hx => hall x (List.mem_cons_of_mem _ hx))
    rw [mountlist_cons_missing_skip K dir m rest s hm.1 hm.2]
    simp [MRun.after, mountsOf_append, mountsOf_isdir, hrest]

/-- Claim C5, amended: when `mountlist` runs with `ignore_missing = true` and
reaches an entry `mp` whose path passes the length check
(`strlen(dir) + strlen(mp) < PATH_MAX`) and whose source is not an existing
directory, the batch goes on exactly as if the entry were not in the list: same
result, same final state, same mounts; all the entry adds to what the run does
is its own `isdir` call, that is the `stat` call and, when `stat` failed, the
"stat: ..." message on stderr. In particular a batch whose entries all pass the
length check and all miss their source succeeds without a mount. -/
theorem mountlist_missing_source_skipped (K : Kernel σ) (dir : CStr) (pre : List CStr)
    (mp : CStr) (rest : List CStr) (s : σ)
    (hreach : (mountlist K dir (strlen dir) pre true s).res = .ret true)
    (hfit : strlen dir + strlen mp < PATH_MAX)
    (hmiss : K.stat (mountlist K dir (strlen dir) pre true s).state (dir ++ mp) ≠ .ok true) :
    ((mountlist K dir (strlen dir) (pre ++ mp :: rest) true s).res =
        (mountlist K dir (strlen dir) (pre ++ rest) true s).res ∧
      (mountlist K dir (strlen dir) (pre ++ mp :: rest) true s).state =
        (mountlist K dir (strlen dir) (pre ++ rest) true s).state ∧
      mountsOf (mountlist K dir (strlen dir) (pre ++ mp :: rest) true s).trace =
        mountsOf (mountlist K dir (strlen dir) (pre ++ rest) true s).trace ∧
      (mountlist K dir (strlen dir) (pre ++ mp :: rest) true s).trace =
        (mountlist K dir (strlen dir) pre true s).trace ++
          (isdir K (mountlist K dir (strlen dir) pre true s).state (dir ++ mp)).2 ++
          (mountlist K dir (strlen dir) rest true
            (mountlist K dir (strlen dir) pre true s).state).trace) ∧
    (∀ e, K.stat (mountlist K dir (strlen dir) pre true s).state (dir ++ mp) = .fail e →
      (isdir K (mountlist K dir (strlen dir) pre true s).state (dir ++ mp)).2 =
        [.stat (dir ++ mp) (.fail e), .stderr (.statFailed e)]) ∧
    (∀ d, K.stat (mountlist K dir (strlen dir) pre true s).state (dir ++ mp) = .ok d →
      (isdir K (mountlist K dir (strlen dir) pre true s).state (dir ++ mp)).2 =
        [.stat (dir ++ mp) (.ok d)]) ∧
    ∀ (mps : List CStr) (s0 : σ),
      (∀ m ∈ mps, strlen dir + strlen m < PATH_MAX ∧ K.stat s0 (dir ++ m) ≠ .ok true) →
      (mountlist K dir (strlen dir) mps true s0).res = .ret true ∧
      (mountlist K dir (strlen dir) mps true s0).state = s0 ∧
      mountsOf (mountlist K dir (strlen dir) mps true s0).trace = [] := by
  have hev := isdir_events K (mountlist K dir (strlen dir) pre true s).state (dir ++ mp)
  refine ⟨?_, hev.1, hev.2, fun mps s0 h => mountlist_all_missing K dir mps s0 h⟩
  rw [mountlist_at K dir (strlen dir) true pre (mp :: rest) s hreach,
    mountlist_at K dir (strlen dir) true pre rest s hreach,
    mountlist_cons_missing_skip K dir mp rest _ hfit hmiss]
  simp [MRun.after, mountsOf_append, mountsOf_isdir]

/-- Claim C10, amended: when `mountlist` runs with `ignore_missing = true` and the
source of the first entry is not an existing directory, the skipped entry
writes to stderr exactly what its `isdir` call writes: "stat: ..." with the
`errno` whenever `stat` failed, whatever the `errno` (nonexistence included),
and nothing when `stat` succeeded on something that is not a directory.
`mountlist` itself adds no message. -/
theorem mountlist_skip_diagnostics (K : Kernel σ) (dir mp : CStr) (rest : List CStr)
    (s : σ) (hfit : strlen dir + strlen mp < PATH_MAX)
    (hmiss : K.stat s (dir ++ mp) ≠ .ok true) :
    stderrOf (mountlist K dir (strlen dir) (mp :: rest) true s).trace =
      (match K.stat s (dir ++ mp) with
        | .fail e => [.statFailed e]
        | .ok _ => []) ++
      stderrOf (mountlist K dir (strlen dir) rest true s).trace := by
  rw [mountlist_cons_missing_skip K dir mp rest s hfit hmiss]
  simp [MRun.after, stderrOf_append, stderrOf_isdir]

/-- Counterexample to claim C10 as stated: `/alt/var/db/xbps` does not exist
(`stat` fails with `ENOENT`), the entry is skipped and the batch succeeds, yet
"stat: No such file or directory" has been written to stderr. -/
theorem tolerated_skip_writes_stat_diagnostic :
    (plainKernel sparseDirs).stat [] ("/alt".toList ++ "/var/db/xbps".toList)
      = .fail ENOENT ∧
    (mountlist (plainKernel sparseDirs) "/alt".toList (strlen "/alt".toList)
      ["/var/db/xbps".toList] true []).res = .ret true ∧
    stderrOf (mountlist (plainKernel sparseDirs) "/alt".toList (strlen "/alt".toList)
      ["/var/db/xbps".toList] true []).trace = [.statFailed ENOENT] := by
  decide

/-- Counterexample to claim C5 as stated: under the alternate root `longPath`
(4093 characters) the source `longPath ++ "/usr"` is not an existing directory
and `ignore_missing` is set, yet the batch fails. -/
theorem long_path_fails_despite_ignore_missing :
    (plainKernel []).stat [] (longPath ++ "/usr".toList) ≠ .ok true ∧
    (mountlist (plainKernel []) longPath (strlen longPath) ["/usr".toList] true []).res
      = .ret false := by
  constructor
  · simp [plainKernel]
  · rw [mountlist_cons_too_long]
    rw [strlen_longPath]
    decide

/-! ### The runs of `main` -/

/-- The user batch of `main` (lines 169-170) is `mountlist` on the user mounts,
also when there are none. -/
theorem userBatch_eq (K : Kernel σ) (dir : CStr) (um : List CStr) (st : σ) :
    (if um.length > 0 then mountlist K dir (strlen dir) um false st
      else (⟨.ret true, st, []⟩ : MRun σ)) = mountlist K dir (strlen dir) um false st := by
  cases um with
  | nil => simp [mountlist]
  | cons a l => simp

/-- Every run of `main` is one of its paths: to prove `P` of the run, prove it of
the run each path produces, under the conditions that select the path. The
paths on which `buf` overflows do not occur, since `main` passes
`strlen(dir)`. -/
theorem main_cases (K : Kernel σ) (env : Env) (s : σ) (c : Creds) (P : Run σ → Prop)
    (usage : env.argv.length < 2 → P ⟨.ret 0, s, c, [.stdout .usage]⟩)
    (optexit : ∀ status tr, ¬ env.argv.length < 2 →
      optloop env.getopt none [] = .exit status tr → P ⟨.ret status, s, c, tr⟩)
    (nodir : ∀ optdir um, ¬ env.argv.length < 2 →
      optloop env.getopt none [] = .parsed optdir um →
      altroot optdir env.VOIDNSRUN_DIR = none →
      P ⟨.ret 1, s, c, [.stderr .envNotFound]⟩)
    (notdir : ∀ optdir um dir, ¬ env.argv.length < 2 →
      optloop env.getopt none [] = .parsed optdir um →
      altroot optdir env.VOIDNSRUN_DIR = some dir →
      (isdir K s dir).1 = false →
      P ⟨.ret 1, s, c, (isdir K s dir).2 ++ [.stderr (.notADirectory dir)]⟩)
    (nounshare : ∀ optdir um dir e, ¬ env.argv.length < 2 →
      optloop env.getopt none [] = .parsed optdir um →
      altroot optdir env.VOIDNSRUN_DIR = some dir →
      (isdir K s dir).1 = true →
      K.unshare s = .error e →
      P ⟨.ret 1, s, c,
        (isdir K s dir).2 ++ [.unshare (.err e), .stderr (.unshareFailed e)]⟩)
    (noprog : ∀ optdir um dir s1, ¬ env.argv.length < 2 →
      optloop env.getopt none [] = .parsed optdir um →
      altroot optdir env.VOIDNSRUN_DIR = some dir →
      (isdir K s dir).1 = true →
      K.unshare s = .ok s1 →
      env.argv.get? env.optind = none →
      P ⟨.undefined, s1, c, (isdir K s dir).2 ++ [.unshare .ok]⟩)
    (mounts : ∀ optdir um dir s1 prog m1 m2 t1 t2, ¬ env.argv.length < 2 →
      optloop env.getopt none [] = .parsed optdir um →
      altroot optdir env.VOIDNSRUN_DIR = some dir →
      (isdir K s dir).1 = true →
      K.unshare s = .ok s1 →
      env.argv.get? env.optind = some prog →
      m1 = mountlist K dir (strlen dir) (mountpoints prog) true s1 →
      m2 = mountlist K dir (strlen dir) um false m1.state →
      t1 = (isdir K s dir).2 ++ [.unshare .ok] ++ m1.trace →
      t2 = t1 ++ m2.trace →
      (m1.res = .ret false → P ⟨.ret 1, m1.state, c, t1⟩) ∧
      (m1.res = .ret true → m2.res = .ret false → P ⟨.ret 1, m2.state, c, t2⟩) ∧
      (m1.res = .ret true → m2.res = .ret true →
        (∀ e, K.setreuid m2.state c c.ruid.val c.ruid.val = .err e →
          P ⟨.ret 1, m2.state, c,
            t2 ++ [.setreuid c.ruid.val c.ruid.val (.err e),
              .stderr (.setreuidFailed e)]⟩) ∧
        (K.setreuid m2.state c c.ruid.val c.ruid.val = .ok →
          (∀ e, K.setregid m2.state (c.setreuid c.ruid.val c.ruid.val)
              c.rgid.val c.rgid.val = .err e →
            P ⟨.ret 1, m2.state, c.setreuid c.ruid.val c.ruid.val,
              t2 ++ [.setreuid c.ruid.val c.ruid.val .ok,
                .setregid c.rgid.val c.rgid.val (.err e),
                .stderr (.setregidFailed e)]⟩) ∧
          (K.setregid m2.state (c.setreuid c.ruid.val c.ruid.val)
              c.rgid.val c.rgid.val = .ok →
            (∀ e, K.execvp m2.state
                ((c.setreuid c.ruid.val c.ruid.val).setregid c.rgid.val c.rgid.val)
                prog (env.argv.drop env.optind) = .err e →
              P ⟨.ret 1, m2.state,
                (c.setreuid c.ruid.val c.ruid.val).setregid c.rgid.val c.rgid.val,
                t2 ++ [.setreuid c.ruid.val c.ruid.val .ok,
                  .setregid c.rgid.val c.rgid.val .ok,
                  .execvp prog (env.argv.drop env.optind) (.err e),
                  .stderr (.execvpFailed prog e)]⟩) ∧
            (K.execvp m2.state
                ((c.setreuid c.ruid.val c.ruid.val).setregid c.rgid.val c.rgid.val)
                prog (env.argv.drop env.optind) = .ok →
              P ⟨.replaced, m2.state,
                (c.setreuid c.ruid.val c.ruid.val).setregid c.rgid.val c.rgid.val,
                t2 ++ [.setreuid c.ruid.val c.ruid.val .ok,
                  .setregid c.rgid.val c.rgid.val .ok,
                  .execvp prog (env.argv.drop env.optind) .ok]⟩))))) :
    P (main K env s c) := by
  unfold main
  split
  · exact usage ‹_›
  · rename_i hargc
    split
    · exact optexit _ _ hargc ‹_›
    · rename_i optdir um hopts
      split
      · exact nodir optdir um hargc hopts ‹_›
      · rename_i dir hdir
        simp only [userBatch_eq]
        split
        · exact notdir optdir um dir hargc hopts hdir ‹_›
        · rename_i hisdir
          have hisdir : (isdir K s dir).1 = true := by simpa using hisdir
          split
          · exact nounshare optdir um dir _ hargc hopts hdir hisdir ‹_›
          · rename_i s1 hun
            split
            · exact noprog optdir um dir s1 hargc hopts hdir hisdir hun ‹_›
            · rename_i prog hprog
              have H := mounts optdir um dir s1 prog _ _ _ _ hargc hopts hdir hisdir hun hprog
                rfl rfl rfl rfl
              split
              · rename_i h1
                exact absurd h1 (mountlist_no_overflow K dir _ _ _)
              · exact H.1 ‹_›
              · rename_i h1
                split
                · rename_i h2
                  exact absurd h2 (mountlist_no_overflow K dir _ _ _)
                · exact H.2.1 h1 ‹_›
                · rename_i h2
                  have H3 := H.2.2 h1 h2
                  split
                  · exact H3.1 _ ‹_›
                  · rename_i hu
                    split
                    · exact (H3.2 hu).1 _ ‹_›
                    · rename_i hg
                      split
                      · exact ((H3.2 hu).2 hg).1 _ ‹_›
                      · exact ((H3.2 hu).2 hg).2 ‹_›



/-- An event that is no call is no call of the privilege drop or hand-off. -/
theorem not_drop_of_not_call (e : Event) (h : e.isCall = false) : e.isDropOrExec = false := by
  cases e <;> simp_all [Event.isCall, Event.isDropOrExec]

/-- The function `isdir` makes no call of the privilege drop or hand-off. -/
theorem isdir_no_drop (K : Kernel σ) (s : σ) (p : CStr) :
    ∀ e ∈ (isdir K s p).2, e.isDropOrExec = false :=
  fun e he => not_drop_of_not_call e (isdir_no_call K s p e he)

/-- The function `mountlist` makes no call of the privilege drop or hand-off. -/
theorem mountlist_no_drop (K : Kernel σ) (dir : CStr) (n : Nat) (mps : List CStr)
    (ign : Bool) (s : σ) :
    ∀ e ∈ (mountlist K dir n mps ign s).trace, e.isDropOrExec = false := by
  induction mps generalizing s with
  | nil => simp [mountlist]
  | cons mp rest ih =>
    have hd := isdir_no_drop K s (dir ++ mp)
    have hm := isdir_no_drop K s mp
    simp only [mountlist]
    split
    · simp [Event.isDropOrExec]
    · split
      · simp
      · split
        · split
          · intro e he
            simp only [MRun.after, List.mem_append] at he
            rcases he with he | he
            · exact hd e he
            · exact ih s e he
          · intro e he
            simp only [List.mem_append, List.mem_singleton] at he
            rcases he with he | he
            · exact hd e he
            · subst he; rfl
        · split
          · intro e he
            simp only [List.mem_append, List.mem_singleton] at he
            rcases he with (he | he) | he
            · exact hd e he
            · exact hm e he
            · subst he; rfl
          · split
            · intro e he
              simp only [List.mem_append, List.mem_cons, List.mem_singleton,
                List.not_mem_nil, or_false] at he
              rcases he with (he | he) | he | he
              · exact hd e he
              · exact hm e he
              · subst he; rfl
              · subst he; rfl
            · intro e he
              simp only [MRun.after, List.mem_append, List.mem_singleton] at he
              rcases he with ((he | he) | he) | he
              · exact hd e he
              · exact hm e he
              · subst he; rfl
              · exact ih _ e he

/-- When `main` returns from inside the option loop, the status is 0 after
printing the version or the help, or 1 after the "too many user mounts" message
or after a `?` from `getopt`. -/
theorem optloop_exit (opts : List (Char × CStr)) (dir : Option CStr) (um : List CStr)
    (status : Int) (tr : List Event) (h : optloop opts dir um = .exit status tr) :
    (status = 0 ∧ (tr = [.stdout .version] ∨ tr = [.stdout .usage])) ∨
    (status = 1 ∧ (tr = [.stderr .tooManyUserMounts] ∨ tr = [])) := by
  induction opts generalizing dir um with
  | nil => simp [optloop] at h
  | cons o rest ih =>
    obtain ⟨ch, optarg⟩ := o
    simp only [optloop] at h
    split at h
    · simp only [Opts.exit.injEq] at h
      simp [← h.1, ← h.2]
    · split at h
      · simp only [Opts.exit.injEq] at h
        simp [← h.1, ← h.2]
      · split at h
        · exact ih _ _ h
        · split at h
          · split at h
            · exact ih _ _ h
            · simp only [Opts.exit.injEq] at h
              simp [← h.1, ← h.2]
          · split at h
            · simp only [Opts.exit.injEq] at h
              simp [← h.1, ← h.2]
            · exact ih _ _ h

/-- A return from inside the option loop has made no call. -/
theorem optloop_exit_no_call (opts : List (Char × CStr)) (dir : Option CStr)
    (um : List CStr) (status : Int) (tr : List Event)
    (h : optloop opts dir um = .exit status tr) : ∀ e ∈ tr, e.isCall = false := by
  rcases optloop_exit opts dir um status tr h with ⟨_, h | h⟩ | ⟨_, h | h⟩ <;>
    subst h <;> simp [Event.isCall]

/-- The shape of every trace of `main`: a part `front` without any call of
`setreuid`, `setregid` or `execvp`, and then either nothing, or (after mounts
that were all applied) one of the four ways the privilege drop and hand-off can
go. -/
theorem main_trace_shape (K : Kernel σ) (env : Env) (s : σ) (c : Creds) :
    ∃ front tail : List Event,
      (main K env s c).trace = front ++ tail ∧
      (∀ e ∈ front, e.isDropOrExec = false) ∧
      (tail = [] ∨
        ∃ prog, MountsApplied K env s prog front ∧
          ((∃ e, tail = [.setreuid c.ruid.val c.ruid.val (.err e),
                .stderr (.setreuidFailed e)] ∧
              (main K env s c).outcome = .ret 1) ∨
           (∃ e, tail = [.setreuid c.ruid.val c.ruid.val .ok,
                .setregid c.rgid.val c.rgid.val (.err e), .stderr (.setregidFailed e)] ∧
              (main K env s c).outcome = .ret 1) ∨
           (∃ e, tail = [.setreuid c.ruid.val c.ruid.val .ok,
                .setregid c.rgid.val c.rgid.val .ok,
                .execvp prog (env.argv.drop env.optind) (.err e),
                .stderr (.execvpFailed prog e)] ∧
              (main K env s c).outcome = .ret 1) ∨
           (tail = [.setreuid c.ruid.val c.ruid.val .ok,
                .setregid c.rgid.val c.rgid.val .ok,
                .execvp prog (env.argv.drop env.optind) .ok] ∧
              (main K env s c).outcome = .replaced))) := by
  apply main_cases K env s c (fun r => ∃ front tail : List Event,
      r.trace = front ++ tail ∧
      (∀ e ∈ front, e.isDropOrExec = false) ∧
      (tail = [] ∨
        ∃ prog, MountsApplied K env s prog front ∧
          ((∃ e, tail = [.setreuid c.ruid.val c.ruid.val (.err e),
                .stderr (.setreuidFailed e)] ∧
              r.outcome = .ret 1) ∨
           (∃ e, tail = [.setreuid c.ruid.val c.ruid.val .ok,
                .setregid c.rgid.val c.rgid.val (.err e), .stderr (.setregidFailed e)] ∧
              r.outcome = .ret 1) ∨
           (∃ e, tail = [.setreuid c.ruid.val c.ruid.val .ok,
                .setregid c.rgid.val c.rgid.val .ok,
                .execvp prog (env.argv.drop env.optind) (.err e),
                .stderr (.execvpFailed prog e)] ∧
              r.outcome = .ret 1) ∨
           (tail = [.setreuid c.ruid.val c.ruid.val .ok,
                .setregid c.rgid.val c.rgid.val .ok,
                .execvp prog (env.argv.drop env.optind) .ok] ∧
              r.outcome = .replaced))))
  · intro _
    exact ⟨_, [], (List.append_nil _).symm, by simp [Event.isDropOrExec], Or.inl rfl⟩
  · intro status tr _ h
    exact ⟨tr, [], (List.append_nil _).symm,
      fun e he => not_drop_of_not_call e (optloop_exit_no_call _ _ _ _ _ h e he), Or.inl rfl⟩
  · intro _ _ _ _ _
    exact ⟨_, [], (List.append_nil _).symm, by simp [Event.isDropOrExec], Or.inl rfl⟩
  · intro _ _ dir _ _ _ _
    refine ⟨_, [], (List.append_nil _).symm, ?_, Or.inl rfl⟩
    intro e he
    simp only [List.mem_append, List.mem_singleton] at he
    rcases he with he | he
    · exact isdir_no_drop K s dir e he
    · subst he; rfl
  · intro _ _ dir e _ _ _ _ _
    refine ⟨_, [], (List.append_nil _).symm, ?_, Or.inl rfl⟩
    intro e he
    simp only [List.mem_append, List.mem_cons, List.mem_singleton, List.not_mem_nil,
      or_false] at he
    rcases he with he | he | he
    · exact isdir_no_drop K s dir e he
    · subst he; rfl
    · subst he; rfl
  · intro _ _ dir s1 _ _ _ _ _ _
    refine ⟨_, [], (List.append_nil _).symm, ?_, Or.inl rfl⟩
    intro e he
    simp only [List.mem_append, List.mem_singleton] at he
    rcases he with he | he
    · exact isdir_no_drop K s dir e he
    · subst he; rfl
  · intro optdir um dir s1 prog m1 m2 t1 t2 _ hopts hdir _ hun hprog hm1 hm2 ht1 ht2
    have hfront1 : ∀ e ∈ t1, e.isDropOrExec = false := by
      intro e he
      rw [ht1] at he
      simp only [List.mem_append, List.mem_singleton] at he
      rcases he with (he | he) | he
      · exact isdir_no_drop K s dir e he
      · subst he; rfl
      · rw [hm1] at he
        exact mountlist_no_drop _ _ _ _ _ _ e he
    have hfront2 : ∀ e ∈ t2, e.isDropOrExec = false := by
      intro e he
      rw [ht2] at he
      simp only [List.mem_append] at he
      rcases he with he | he
      · exact hfront1 e he
      · rw [hm2] at he
        exact mountlist_no_drop _ _ _ _ _ _ e he
    refine ⟨?_, ?_, ?_⟩
    · intro _
      exact ⟨t1, [], (List.append_nil _).symm, hfront1, Or.inl rfl⟩
    · intro _ _
      exact ⟨t2, [], (List.append_nil _).symm, hfront2, Or.inl rfl⟩
    · intro h1 h2
      have happ : MountsApplied K env s prog t2 := by
        refine ⟨optdir, um, dir, s1, hopts, hdir, hprog, hun, ?_, ?_, ?_⟩
        · rw [← hm1]; exact h1
        · rw [← hm1, ← hm2]; exact h2
        · rw [← hm1, ← hm2, ht2, ht1]
      refine ⟨?_, ?_⟩
      · intro e _
        exact ⟨t2, _, rfl, hfront2, Or.inr ⟨prog, happ, Or.inl ⟨e, rfl, rfl⟩⟩⟩
      · intro _
        refine ⟨?_, ?_⟩
        · intro e _
          exact ⟨t2, _, rfl, hfront2, Or.inr ⟨prog, happ, Or.inr (Or.inl ⟨e, rfl, rfl⟩)⟩⟩
        · intro _
          refine ⟨?_, ?_⟩
          · intro e _
            exact ⟨t2, _, rfl, hfront2,
              Or.inr ⟨prog, happ, Or.inr (Or.inr (Or.inl ⟨e, rfl, rfl⟩))⟩⟩
          · intro _
            exact ⟨t2, _, rfl, hfront2,
              Or.inr ⟨prog, happ, Or.inr (Or.inr (Or.inr ⟨rfl, rfl⟩))⟩⟩

/-! ### The option loop -/

/-- No option, no user mount. -/
theorem userMountArgs_nil : userMountArgs [] = [] := rfl

/-- The user mounts of one more option. -/
theorem userMountArgs_cons (ch : Char) (optarg : CStr) (rest : List (Char × CStr)) :
    userMountArgs ((ch, optarg) :: rest) =
      if ch = 'm' then optarg :: userMountArgs rest else userMountArgs rest := by
  unfold userMountArgs
  by_cases h : ch = 'm'
  · simp [h]
  · simp [h]

/-- The user mounts of a concatenation. -/
theorem userMountArgs_append (a b : List (Char × CStr)) :
    userMountArgs (a ++ b) = userMountArgs a ++ userMountArgs b := by
  simp [userMountArgs]

/-- When the option loop runs to the end, `usermounts` has grown by the
arguments of all the `-m` options, in order, and holds at most 8 entries. -/
theorem optloop_parsed (opts : List (Char × CStr)) (dir : Option CStr) (um : List CStr)
    (d : Option CStr) (um1 : List CStr) (h : optloop opts dir um = .parsed d um1)
    (hlen : um.length ≤ USERMOUNTS_MAX) :
    um1 = um ++ userMountArgs opts ∧ um1.length ≤ USERMOUNTS_MAX := by
  induction opts generalizing dir um with
  | nil =>
    simp only [optloop, Opts.parsed.injEq] at h
    simp [userMountArgs_nil, ← h.2, hlen]
  | cons o rest ih =>
    obtain ⟨ch, optarg⟩ := o
    simp only [optloop] at h
    rw [userMountArgs_cons]
    split at h
    · cases h
    · split at h
      · cases h
      · split at h
        · rename_i hr
          have hm : ¬ ch = 'm' := by rw [hr]; decide
          rw [if_neg hm]
          exact ih _ _ h hlen
        · split at h
          · rename_i hm
            rw [if_pos hm]
            split at h
            · rename_i hlt
              have := ih _ _ h (by simp only [List.length_append, List.length_singleton]; omega)
              simpa [List.append_assoc] using this
            · cases h
          · rename_i hm
            rw [if_neg hm]
            split at h
            · cases h
            · exact ih _ _ h hlen

/-- Options that do not leave the loop are consumed, as long as the user mounts
fit. -/
theorem optloop_append (pre rest : List (Char × CStr)) (dir : Option CStr)
    (um : List CStr) (hstay : ∀ o ∈ pre, leavesLoop o.1 = false)
    (hfit : um.length + (userMountArgs pre).length ≤ USERMOUNTS_MAX) :
    ∃ dir1, optloop (pre ++ rest) dir um = optloop rest dir1 (um ++ userMountArgs pre) := by
  induction pre generalizing dir um with
  | nil => exact ⟨dir, by simp [userMountArgs_nil]⟩
  | cons o pre ih =>
    obtain ⟨ch, optarg⟩ := o
    have ho := hstay (ch, optarg) (List.mem_cons_self _ _)
    simp only [leavesLoop, Bool.or_eq_false_iff, decide_eq_false_iff_not] at ho
    obtain ⟨⟨hv, hh⟩, hq⟩ := ho
    have hstay1 : ∀ o ∈ pre, leavesLoop o.1 = false :=
      fun o h => hstay o (List.mem_cons_of_mem _ h)
    rw [userMountArgs_cons] at hfit ⊢
    rw [List.cons_append]
    simp only [optloop, if_neg hv, if_neg hh, if_neg hq]
    by_cases hr : ch = 'r'
    · have hm : ¬ ch = 'm' := by rw [hr]; decide
      simp only [if_neg hm] at hfit ⊢
      simp only [if_pos hr]
      exact ih _ _ hstay1 hfit
    · by_cases hm : ch = 'm'
      · simp only [if_pos hm, List.length_cons] at hfit ⊢
        have hlt : um.length < USERMOUNTS_MAX := by omega
        simp only [if_neg hr, if_pos hlt]
        obtain ⟨d1, hd1⟩ := ih dir (um ++ [optarg]) hstay1
          (by simp only [List.length_append, List.length_singleton]; omega)
        exact ⟨d1, by rw [hd1]; simp [List.append_assoc]⟩
      · simp only [if_neg hm] at hfit ⊢
        simp only [if_neg hr]
        exact ih _ _ hstay1 hfit

/-- Claim C7: for every command line, when the option loop runs to its end the
user mount list is the arguments of the `-m` options in order of appearance and
has at most `USERMOUNTS_MAX = 8` entries; after any options `pre` that did not
leave the loop and hold at most eight `-m`, the loop goes on with exactly the
`-m` arguments of `pre` stored, in order; and when a ninth `-m` is parsed (eight
`-m` among the options before it, none of which left the loop), `main` returns 1
having only written the "only up to 8 user mounts" message: the system state is
untouched and no `unshare`, `mount`, `setreuid`, `setregid` or `execvp` was
called. -/
theorem usermounts_at_most_eight (K : Kernel σ) (env : Env) (s : σ) (c : Creds) :
    (∀ dir um, optloop env.getopt none [] = .parsed dir um →
      um = userMountArgs env.getopt ∧ um.length ≤ USERMOUNTS_MAX) ∧
    (∀ pre rest, env.getopt = pre ++ rest →
      (∀ o ∈ pre, leavesLoop o.1 = false) →
      (userMountArgs pre).length ≤ USERMOUNTS_MAX →
      ∃ dir, optloop env.getopt none [] = optloop rest dir (userMountArgs pre)) ∧
    (∀ pre optarg rest, env.getopt = pre ++ ('m', optarg) :: rest →
      (∀ o ∈ pre, leavesLoop o.1 = false) →
      (userMountArgs pre).length = USERMOUNTS_MAX →
      2 ≤ env.argv.length →
      main K env s c = ⟨.ret 1, s, c, [.stderr .tooManyUserMounts]⟩ ∧
      ∀ e ∈ (main K env s c).trace, e.isCall = false) := by
  constructor
  · intro dir um h
    have := optloop_parsed env.getopt none [] dir um h (by simp [USERMOUNTS_MAX])
    simpa using this
  constructor
  · intro pre rest hopts hstay hlen
    obtain ⟨d1, hd1⟩ := optloop_append pre rest none [] hstay (by simpa using hlen)
    exact ⟨d1, by rw [hopts, hd1]; simp⟩
  · intro pre optarg rest hopts hstay hlen hargc
    obtain ⟨d1, hd1⟩ := optloop_append pre (('m', optarg) :: rest) none [] hstay
      (by simp [hlen])
    have hexit : optloop env.getopt none [] = .exit 1 [.stderr .tooManyUserMounts] := by
      rw [hopts, hd1]
      simp [optloop, hlen]
    have hmain : main K env s c = ⟨.ret 1, s, c, [.stderr .tooManyUserMounts]⟩ := by
      unfold main
      rw [if_neg (by omega), hexit]
    refine ⟨hmain, ?_⟩
    rw [hmain]
    simp [Event.isCall]

/-! ### The privilege drop -/

/-- Setting an id to a valid id yields that id. -/
theorem newId_val (old i : Id) : newId old i.val = i := by
  unfold newId
  rw [dif_pos i.isLt]

/-- No id is `(uid_t)-1`. -/
theorem val_ne_NO_ID (i : Id) : i.val ≠ NO_ID := by
  unfold NO_ID
  exact Nat.ne_of_lt i.isLt

/-- After `setreuid(uid, uid)` and `setregid(gid, gid)` with the real ids, all
six ids are the real ones. -/
theorem drop_creds (c : Creds) :
    (c.setreuid c.ruid.val c.ruid.val).setregid c.rgid.val c.rgid.val =
      { ruid := c.ruid, euid := c.ruid, suid := c.ruid,
        rgid := c.rgid, egid := c.rgid, sgid := c.rgid } := by
  simp [Creds.setreuid, Creds.setregid, newId_val, val_ne_NO_ID]

/-- A call of the privilege drop or hand-off is not in a trace that holds
none. -/
theorem not_mem_of_no_drop (t : List Event) (h : ∀ e ∈ t, e.isDropOrExec = false)
    (e : Event) (he : e.isDropOrExec = true) : e ∉ t := by
  intro hm
  rw [h e hm] at he
  cases he

/-- What a run has done up to the end of its mount batches holds no call of the
privilege drop or the hand-off. -/
theorem main_front_no_drop (K : Kernel σ) (s : σ) (dir : CStr) (prog : CStr)
    (um : List CStr) (s1 : σ) :
    ∀ e ∈ (isdir K s dir).2 ++ [Event.unshare .ok] ++
        (mountlist K dir (strlen dir) (mountpoints prog) true s1).trace ++
        (mountlist K dir (strlen dir) um false
          (mountlist K dir (strlen dir) (mountpoints prog) true s1).state).trace,
      e.isDropOrExec = false := by
  intro e he
  simp only [List.mem_append, List.mem_singleton] at he
  rcases he with ((he | he) | he) | he
  · exact isdir_no_drop K s dir e he
  · subst he; rfl
  · exact mountlist_no_drop _ _ _ _ _ _ e he
  · exact mountlist_no_drop _ _ _ _ _ _ e he

/-- Claim C2: for every starting credentials `c` (and every command line and
system), if the calls `setreuid(uid, uid)` and `setregid(gid, gid)` that `main`
makes with `uid = getuid()` and `gid = getgid()` both succeed, then at the end
of the run the real, effective and saved user ids all are the real user id of
`c`, and the real, effective and saved group ids all are its real group id. -/
theorem main_drop_sets_all_ids (K : Kernel σ) (env : Env) (s : σ) (c : Creds)
    (hu : Event.setreuid c.ruid.val c.ruid.val .ok ∈ (main K env s c).trace)
    (hg : Event.setregid c.rgid.val c.rgid.val .ok ∈ (main K env s c).trace) :
    (main K env s c).creds =
      { ruid := c.ruid, euid := c.ruid, suid := c.ruid,
        rgid := c.rgid, egid := c.rgid, sgid := c.rgid } := by
  revert hu hg
  apply main_cases K env s c (fun r =>
    Event.setreuid c.ruid.val c.ruid.val .ok ∈ r.trace →
    Event.setregid c.rgid.val c.rgid.val .ok ∈ r.trace →
    r.creds = { ruid := c.ruid, euid := c.ruid, suid := c.ruid,
                rgid := c.rgid, egid := c.rgid, sgid := c.rgid })
  · intro _ h
    simp at h
  · intro status tr _ h hu
    have := optloop_exit_no_call _ _ _ _ _ h _ hu
    simp [Event.isCall] at this
  · intro _ _ _ _ _ h
    simp at h
  · intro _ _ dir _ _ _ _ h
    have := isdir_no_drop K s dir
    simp only [List.mem_append, List.mem_singleton] at h
    rcases h with h | h
    · have := this _ h
      simp [Event.isDropOrExec] at this
    · cases h
  · intro _ _ dir e _ _ _ _ _ h
    have := isdir_no_drop K s dir
    simp only [List.mem_append, List.mem_cons, List.mem_singleton, List.not_mem_nil,
      or_false] at h
    rcases h with h | h | h
    · have := this _ h
      simp [Event.isDropOrExec] at this
    · cases h
    · cases h
  · intro _ _ dir s1 _ _ _ _ _ _ h
    have := isdir_no_drop K s dir
    simp only [List.mem_append, List.mem_singleton] at h
    rcases h with h | h
    · have := this _ h
      simp [Event.isDropOrExec] at this
    · cases h
  · intro optdir um dir s1 prog m1 m2 t1 t2 _ _ _ _ hun _ hm1 hm2 ht1 ht2
    have hfront2 : ∀ e ∈ t2, e.isDropOrExec = false := by
      rw [ht2, ht1, hm2, hm1]
      exact main_front_no_drop K s dir prog um s1
    have hfront1 : ∀ e ∈ t1, e.isDropOrExec = false := by
      intro e he
      exact hfront2 e (by rw [ht2]; exact List.mem_append_left _ he)
    have nu : ∀ a b r, Event.setreuid a b r ∉ t2 :=
      fun a b r => not_mem_of_no_drop t2 hfront2 _ rfl
    have ng : ∀ a b r, Event.setregid a b r ∉ t2 :=
      fun a b r => not_mem_of_no_drop t2 hfront2 _ rfl
    refine ⟨?_, ?_, ?_⟩
    · intro _ h
      exact absurd h (not_mem_of_no_drop t1 hfront1 _ rfl)
    · intro _ _ h
      exact absurd h (nu _ _ _)
    · intro _ _
      refine ⟨?_, ?_⟩
      · intro e _ _ h
        simp [ng] at h
      · intro _
        refine ⟨?_, ?_⟩
        · intro e _ _ h
          simp [ng] at h
        · intro _
          refine ⟨?_, ?_⟩
          · intro e _ _ _
            exact drop_creds c
          · intro _ _ _
            exact drop_creds c

/-! ### The order of the mounts -/

/-- The empty trace mounts nothing. -/
theorem mountsOf_nil : mountsOf [] = [] := rfl

/-- A mount event is a mount of the trace. -/
theorem mountsOf_mount (a b : CStr) (r : Ret) (t : List Event) :
    mountsOf (Event.mount a b r :: t) = (a, b) :: mountsOf t := rfl

/-- A message is no mount. -/
theorem mountsOf_stderr (d : Diag) (t : List Event) :
    mountsOf (Event.stderr d :: t) = mountsOf t := rfl

/-- The mounts a batch attempts are entries of the list, each `dir ++ p` onto
`p`, in the order of the list. -/
theorem mountlist_mounts_sublist (K : Kernel σ) (dir : CStr) (n : Nat) (mps : List CStr)
    (ign : Bool) (s : σ) :
    List.Sublist (mountsOf (mountlist K dir n mps ign s).trace) (mps.map (bindOf dir)) := by
  induction mps generalizing s with
  | nil => simp [mountlist, mountsOf_nil]
  | cons mp rest ih =>
    simp only [mountlist, List.map_cons]
    split
    · simp [mountsOf_stderr, mountsOf_nil]
    · split
      · simp [mountsOf_nil]
      · split
        · split
          · simp only [MRun.after, mountsOf_append, mountsOf_isdir, List.nil_append]
            exact List.Sublist.cons _ (ih s)
          · simp [mountsOf_append, mountsOf_isdir, mountsOf_stderr, mountsOf_nil]
        · split
          · simp [mountsOf_append, mountsOf_isdir, mountsOf_stderr, mountsOf_nil]
          · split
            · simp only [mountsOf_append, mountsOf_isdir, List.nil_append, mountsOf_mount,
                mountsOf_stderr, mountsOf_nil]
              simp [bindOf]
            · simp only [MRun.after, mountsOf_append, mountsOf_isdir, List.nil_append,
                mountsOf_mount, mountsOf_nil, List.singleton_append]
              exact List.Sublist.cons₂ _ (ih _)

/-- Without `ignore_missing` no entry is passed over: the mounts a batch attempts
are the first entries of the list. -/
theorem mountlist_mounts_initial (K : Kernel σ) (dir : CStr) (n : Nat) (mps : List CStr)
    (s : σ) :
    mountsOf (mountlist K dir n mps false s).trace <+: mps.map (bindOf dir) := by
  induction mps generalizing s with
  | nil => simp [mountlist, mountsOf_nil]
  | cons mp rest ih =>
    simp only [mountlist, List.map_cons]
    split
    · simp [mountsOf_stderr, mountsOf_nil]
    · split
      · simp [mountsOf_nil]
      · split
        · simp [mountsOf_append, mountsOf_isdir, mountsOf_stderr, mountsOf_nil]
        · split
          · simp [mountsOf_append, mountsOf_isdir, mountsOf_stderr, mountsOf_nil]
          · split
            · simp only [mountsOf_append, mountsOf_isdir, List.nil_append, mountsOf_mount,
                mountsOf_stderr, mountsOf_nil]
              simp [bindOf]
            · rename_i s2 _
              simp only [MRun.after, mountsOf_append, mountsOf_isdir, List.nil_append,
                mountsOf_mount, mountsOf_nil, List.singleton_append]
              obtain ⟨t, ht⟩ := ih s2
              exact ⟨t, by simp [bindOf, ← ht]⟩

/-- Without `ignore_missing`, a batch that succeeds has mounted every entry of
the list. -/
theorem mountlist_strict_mounts_all (K : Kernel σ) (dir : CStr) (n : Nat)
    (mps : List CStr) (s : σ) (hok : (mountlist K dir n mps false s).res = .ret true) :
    mountsOf (mountlist K dir n mps false s).trace = mps.map (bindOf dir) := by
  induction mps generalizing s with
  | nil => simp [mountlist, mountsOf_nil]
  | cons mp rest ih =>
    simp only [mountlist] at hok ⊢
    split at hok
    · cases hok
    · rename_i h1
      rw [if_neg h1]
      split at hok
      · cases hok
      · rename_i h2
        rw [if_neg h2]
        split at hok
        · simp at hok
        · rename_i h3
          rw [if_neg h3]
          split at hok
          · cases hok
          · rename_i h4
            rw [if_neg h4]
            split at hok
            · cases hok
            · rename_i s2 hm
              simp only [hm, MRun.after, mountsOf_append, mountsOf_isdir, List.nil_append,
                mountsOf_mount, mountsOf_nil, List.singleton_append, List.map_cons]
              rw [ih s2 hok]
              rfl

/-- An entry that fits and whose source and mount point are directories is
mounted; the batch goes on from the new state when the mount succeeded and ends
with `false` when it failed. -/
theorem mountlist_cons_attempt (K : Kernel σ) (dir mp : CStr) (rest : List CStr)
    (ign : Bool) (s : σ) (hfit : strlen dir + strlen mp < PATH_MAX)
    (hsrc : K.stat s (dir ++ mp) = .ok true) (hdst : K.stat s mp = .ok true) :
    mountsOf (mountlist K dir (strlen dir) (mp :: rest) ign s).trace =
      (dir ++ mp, mp) ::
        (match K.mount s (dir ++ mp) mp with
          | .ok s2 => mountsOf (mountlist K dir (strlen dir) rest ign s2).trace
          | .error _ => []) ∧
    (mountlist K dir (strlen dir) (mp :: rest) ign s).res =
      (match K.mount s (dir ++ mp) mp with
        | .ok s2 => (mountlist K dir (strlen dir) rest ign s2).res
        | .error _ => .ret false) := by
  have h1 : ¬ (strlen dir + strlen mp ≥ PATH_MAX) := by omega
  have h2 : ¬ (PATH_MAX < strlen dir + strlen mp + 1) := by omega
  have h3 : ¬ (isdir K s (dir ++ mp)).1 = false := by rw [isdir_true K s _ hsrc]; simp
  have h4 : ¬ (isdir K s mp).1 = false := by rw [isdir_true K s _ hdst]; simp
  simp only [mountlist, if_neg h1, if_neg h2, if_neg h3, if_neg h4]
  cases hm : K.mount s (dir ++ mp) mp with
  | error e =>
    simp only [mountsOf_append, mountsOf_isdir, mountsOf_mount, mountsOf_stderr,
      mountsOf_nil, List.nil_append]
    exact ⟨trivial, trivial⟩
  | ok s2 =>
    simp only [MRun.after, mountsOf_append, mountsOf_isdir, mountsOf_mount,
      mountsOf_nil, List.nil_append, List.singleton_append]
    exact ⟨trivial, trivial⟩



/-- At any place of a batch: an entry that fits and whose source and mount point
are directories is mounted right after the mounts of the entries before it. -/
theorem mountlist_attempt_at (K : Kernel σ) (dir : CStr) (pre : List CStr) (mp : CStr)
    (rest : List CStr) (ign : Bool) (s : σ)
    (hreach : (mountlist K dir (strlen dir) pre ign s).res = .ret true)
    (hfit : strlen dir + strlen mp < PATH_MAX)
    (hsrc : K.stat (mountlist K dir (strlen dir) pre ign s).state (dir ++ mp) = .ok true)
    (hdst : K.stat (mountlist K dir (strlen dir) pre ign s).state mp = .ok true) :
    mountsOf (mountlist K dir (strlen dir) (pre ++ mp :: rest) ign s).trace =
      mountsOf (mountlist K dir (strlen dir) pre ign s).trace ++
        (dir ++ mp, mp) ::
          (match K.mount (mountlist K dir (strlen dir) pre ign s).state (dir ++ mp) mp with
            | .ok s2 => mountsOf (mountlist K dir (strlen dir) rest ign s2).trace
            | .error _ => []) := by
  rw [mountlist_at K dir (strlen dir) ign pre (mp :: rest) s hreach]
  simp only [MRun.after, mountsOf_append]
  rw [(mountlist_cons_attempt K dir mp rest ign _ hfit hsrc hdst).1]

/-- At any place of a batch with `ignore_missing`: an entry that fits and whose
source is not a directory changes neither the result nor the mounts. -/
theorem mountlist_skip_at (K : Kernel σ) (dir : CStr) (pre : List CStr) (mp : CStr)
    (rest : List CStr) (s : σ)
    (hreach : (mountlist K dir (strlen dir) pre true s).res = .ret true)
    (hfit : strlen dir + strlen mp < PATH_MAX)
    (hmiss : K.stat (mountlist K dir (strlen dir) pre true s).state (dir ++ mp) ≠ .ok true) :
    mountsOf (mountlist K dir (strlen dir) (pre ++ mp :: rest) true s).trace =
      mountsOf (mountlist K dir (strlen dir) (pre ++ rest) true s).trace ∧
    (mountlist K dir (strlen dir) (pre ++ mp :: rest) true s).res =
      (mountlist K dir (strlen dir) (pre ++ rest) true s).res := by
  rw [mountlist_at K dir (strlen dir) true pre (mp :: rest) s hreach,
    mountlist_at K dir (strlen dir) true pre rest s hreach,
    mountlist_cons_missing_skip K dir mp rest _ hfit hmiss]
  simp [MRun.after, mountsOf_append, mountsOf_isdir]

/-- At any place of a batch without `ignore_missing`: an entry whose source is
not a directory ends the batch with `false` and without a further mount. -/
theorem mountlist_strict_missing_at (K : Kernel σ) (dir : CStr) (pre : List CStr)
    (mp : CStr) (rest : List CStr) (s : σ)
    (hreach : (mountlist K dir (strlen dir) pre false s).res = .ret true)
    (hmiss : K.stat (mountlist K dir (strlen dir) pre false s).state (dir ++ mp) ≠ .ok true) :
    (mountlist K dir (strlen dir) (pre ++ mp :: rest) false s).res = .ret false ∧
    mountsOf (mountlist K dir (strlen dir) (pre ++ mp :: rest) false s).trace =
      mountsOf (mountlist K dir (strlen dir) pre false s).trace := by
  rw [mountlist_at K dir (strlen dir) false pre (mp :: rest) s hreach]
  by_cases hlong : strlen dir + strlen mp ≥ PATH_MAX
  · rw [mountlist_cons_too_long K dir (strlen dir) false mp rest _ hlong]
    simp [MRun.after, mountsOf_append, mountsOf_stderr, mountsOf_nil]
  · rw [mountlist_cons_missing_strict K dir mp rest _ (by omega) hmiss]
    simp only [MRun.after, mountsOf_append, mountsOf_isdir, mountsOf_stderr, mountsOf_nil]
    simp

/-- A run of `main` that gets as far as mounting attempts the mounts of the fixed
batch and then, only when the fixed batch succeeded, those of the user batch;
and it returns 1 when one of the two batches does not succeed. -/
theorem main_at_mounts (K : Kernel σ) (env : Env) (s : σ) (c : Creds)
    (optdir : Option CStr) (um : List CStr) (dir : CStr) (s1 : σ) (prog : CStr)
    (hargc : 2 ≤ env.argv.length)
    (hopts : optloop env.getopt none [] = .parsed optdir um)
    (hdir : altroot optdir env.VOIDNSRUN_DIR = some dir)
    (hisdir : (isdir K s dir).1 = true)
    (hun : K.unshare s = .ok s1)
    (hprog : env.argv.get? env.optind = some prog) :
    mountsOf (main K env s c).trace =
      mountsOf (mountlist K dir (strlen dir) (mountpoints prog) true s1).trace ++
        (if (mountlist K dir (strlen dir) (mountpoints prog) true s1).res = .ret true then
          mountsOf (mountlist K dir (strlen dir) um false
            (mountlist K dir (strlen dir) (mountpoints prog) true s1).state).trace
         else []) ∧
    ((mountlist K dir (strlen dir) (mountpoints prog) true s1).res ≠ .ret true ∨
      (mountlist K dir (strlen dir) um false
        (mountlist K dir (strlen dir) (mountpoints prog) true s1).state).res ≠ .ret true →
      (main K env s c).outcome = .ret 1) := by
  apply main_cases K env s c (fun r => mountsOf r.trace =
      mountsOf (mountlist K dir (strlen dir) (mountpoints prog) true s1).trace ++
        (if (mountlist K dir (strlen dir) (mountpoints prog) true s1).res = .ret true then
          mountsOf (mountlist K dir (strlen dir) um false
            (mountlist K dir (strlen dir) (mountpoints prog) true s1).state).trace
         else []) ∧
    ((mountlist K dir (strlen dir) (mountpoints prog) true s1).res ≠ .ret true ∨
      (mountlist K dir (strlen dir) um false
        (mountlist K dir (strlen dir) (mountpoints prog) true s1).state).res ≠ .ret true →
      r.outcome = .ret 1))
  · intro h; omega
  · intro _ _ _ h
    rw [hopts] at h
    cases h
  · intro od u _ h hd
    rw [hopts] at h
    cases h
    rw [hdir] at hd
    cases hd
  · intro od u d _ h hd hi
    rw [hopts] at h
    cases h
    rw [hdir] at hd
    cases hd
    rw [hisdir] at hi
    cases hi
  · intro od u d e _ h hd _ hu
    rw [hopts] at h
    cases h
    rw [hdir] at hd
    cases hd
    rw [hun] at hu
    cases hu
  · intro od u d s2 _ h hd _ hu hp
    rw [hprog] at hp
    cases hp
  · intro od u d s2 p m1 m2 t1 t2 _ h hd _ hu hp hm1 hm2 ht1 ht2
    rw [hopts] at h
    cases h
    rw [hdir] at hd
    cases hd
    rw [hun] at hu
    cases hu
    rw [hprog] at hp
    cases hp
    subst hm1 hm2
    have e1 : mountsOf t1 =
        mountsOf (mountlist K dir (strlen dir) (mountpoints prog) true s1).trace := by
      rw [ht1]
      simp only [mountsOf_append, mountsOf_isdir, List.nil_append]
      rfl
    have e2 : mountsOf t2 =
        mountsOf (mountlist K dir (strlen dir) (mountpoints prog) true s1).trace ++
        mountsOf (mountlist K dir (strlen dir) um false
          (mountlist K dir (strlen dir) (mountpoints prog) true s1).state).trace := by
      rw [ht2, mountsOf_append, e1]
    refine ⟨?_, ?_, ?_⟩
    · intro h1
      simp only [h1, e1]
      simp
    · intro h1 _
      simp only [h1, e2]
      simp
    · intro h1 h2
      simp only [h1, h2, if_true]
      refine ⟨?_, ?_⟩
      · intro e _
        rw [mountsOf_append, e2]
        simp [mountsOf]
      · intro _
        refine ⟨?_, ?_⟩
        · intro e _
          rw [mountsOf_append, e2]
          simp [mountsOf]
        · intro _
          refine ⟨?_, ?_⟩
          · intro e _
            rw [mountsOf_append, e2]
            simp [mountsOf]
          · intro _
            rw [mountsOf_append, e2]
            simp [mountsOf]

/-- The length of `deepRoot`. -/
theorem strlen_deepRoot : strlen deepRoot = 4084 := by
  simp only [deepRoot, strlen, List.length_cons, List.length_replicate]

/-- A path under `deepRoot` is not a path of fewer than 4084 characters. -/
theorem deepRoot_append_ne (x y : CStr) (hy : y.length < 4084) : deepRoot ++ x ≠ y := by
  intro h
  have hl := congrArg List.length h
  have hd := strlen_deepRoot
  simp only [strlen] at hd
  rw [List.length_append, hd] at hl
  omega

/-- The fixed batch of `/usr/bin/vi` under `deepRoot`: `/usr` is mounted, then
`/var/db/xbps` fails the length check and ends the batch. -/
theorem deep_fixed_batch :
    mountsOf (mountlist (plainKernel deepDirs) deepRoot (strlen deepRoot)
      (mountpoints "/usr/bin/vi".toList) true []).trace =
        [(deepRoot ++ "/usr".toList, "/usr".toList)] ∧
    (mountlist (plainKernel deepDirs) deepRoot (strlen deepRoot)
      (mountpoints "/usr/bin/vi".toList) true []).res = .ret false := by
  have hp : mountpoints "/usr/bin/vi".toList =
      ["/usr".toList, "/var/db/xbps".toList, "/etc/xbps.d".toList] := by decide
  have hfit : strlen deepRoot + strlen "/usr".toList < PATH_MAX := by
    rw [strlen_deepRoot]; decide
  have hlong : strlen deepRoot + strlen "/var/db/xbps".toList ≥ PATH_MAX := by
    rw [strlen_deepRoot]; decide
  have hsrc : (plainKernel deepDirs).stat [] (deepRoot ++ "/usr".toList) = .ok true := by
    simp [plainKernel, deepDirs]
  have hdst : (plainKernel deepDirs).stat [] "/usr".toList = .ok true := by
    simp [plainKernel, deepDirs]
  have h := mountlist_cons_attempt (plainKernel deepDirs) deepRoot "/usr".toList
    ["/var/db/xbps".toList, "/etc/xbps.d".toList] true [] hfit hsrc hdst
  rw [hp]
  refine ⟨?_, ?_⟩
  · rw [h.1]
    simp only [plainKernel]
    rw [mountlist_cons_too_long _ _ _ _ _ _ _ hlong]
    rfl
  · rw [h.2]
    simp only [plainKernel]
    rw [mountlist_cons_too_long _ _ _ _ _ _ _ hlong]


/-- Claim C8, amended: in every run of `main` that gets as far as mounting
(alternate root `dir` a directory, `unshare` successful into state `s1`, program
`prog`, user mounts `um`), with `fixed` the fixed batch from `s1` and `user` the
user batch from the state `fixed` left:
the mounts attempted are those of `fixed` followed, only if `fixed` succeeded,
by those of `user`, and `main` returns 1 when a batch does not succeed;
`fixed` attempts entries of the profile of `prog` in profile order, each
`dir ++ p` onto `p`; `user` attempts the first entries of `um`, in order, each
`dir ++ u` onto `u`, and all of them when it succeeds; `um` is the list of `-m`
arguments in the order supplied;
entry by entry, once the entries before it have succeeded: a profile entry that
passes the length check and whose source is not an existing directory is passed
over (same mounts and same result as without it); an entry of either batch that
passes the length check and whose source and mount point are directories is
mounted next, and the batch goes on after it exactly when the mount succeeded; a
user entry whose source is not an existing directory ends the user batch with
failure and without a further mount. -/
theorem main_mount_order (K : Kernel σ) (env : Env) (s : σ) (c : Creds)
    (optdir : Option CStr) (um : List CStr) (dir : CStr) (s1 : σ) (prog : CStr)
    (fixed user : MRun σ)
    (hargc : 2 ≤ env.argv.length)
    (hopts : optloop env.getopt none [] = .parsed optdir um)
    (hdir : altroot optdir env.VOIDNSRUN_DIR = some dir)
    (hisdir : (isdir K s dir).1 = true)
    (hun : K.unshare s = .ok s1)
    (hprog : env.argv.get? env.optind = some prog)
    (hfixed : fixed = mountlist K dir (strlen dir) (mountpoints prog) true s1)
    (huser : user = mountlist K dir (strlen dir) um false fixed.state) :
    mountsOf (main K env s c).trace =
      mountsOf fixed.trace ++ (if fixed.res = .ret true then mountsOf user.trace else []) ∧
    (fixed.res ≠ .ret true ∨ user.res ≠ .ret true → (main K env s c).outcome = .ret 1) ∧
    List.Sublist (mountsOf fixed.trace) ((mountpoints prog).map (bindOf dir)) ∧
    mountsOf user.trace <+: um.map (bindOf dir) ∧
    (user.res = .ret true → mountsOf user.trace = um.map (bindOf dir)) ∧
    um = userMountArgs env.getopt ∧
    (∀ pre p rest, mountpoints prog = pre ++ p :: rest →
      (mountlist K dir (strlen dir) pre true s1).res = .ret true →
      strlen dir + strlen p < PATH_MAX →
      K.stat (mountlist K dir (strlen dir) pre true s1).state (dir ++ p) ≠ .ok true →
      mountsOf fixed.trace =
        mountsOf (mountlist K dir (strlen dir) (pre ++ rest) true s1).trace ∧
      fixed.res = (mountlist K dir (strlen dir) (pre ++ rest) true s1).res) ∧
    (∀ pre p rest, mountpoints prog = pre ++ p :: rest →
      (mountlist K dir (strlen dir) pre true s1).res = .ret true →
      strlen dir + strlen p < PATH_MAX →
      K.stat (mountlist K dir (strlen dir) pre true s1).state (dir ++ p) = .ok true →
      K.stat (mountlist K dir (strlen dir) pre true s1).state p = .ok true →
      mountsOf fixed.trace =
        mountsOf (mountlist K dir (strlen dir) pre true s1).trace ++
          (dir ++ p, p) ::
            (match K.mount (mountlist K dir (strlen dir) pre true s1).state (dir ++ p) p with
              | .ok s2 => mountsOf (mountlist K dir (strlen dir) rest true s2).trace
              | .error _ => [])) ∧
    (∀ pre u rest, um = pre ++ u :: rest →
      (mountlist K dir (strlen dir) pre false fixed.state).res = .ret true →
      strlen dir + strlen u < PATH_MAX →
      K.stat (mountlist K dir (strlen dir) pre false fixed.state).state (dir ++ u)
        = .ok true →
      K.stat (mountlist K dir (strlen dir) pre false fixed.state).state u = .ok true →
      mountsOf user.trace =
        mountsOf (mountlist K dir (strlen dir) pre false fixed.state).trace ++
          (dir ++ u, u) ::
            (match K.mount (mountlist K dir (strlen dir) pre false fixed.state).state
                (dir ++ u) u with
              | .ok s2 => mountsOf (mountlist K dir (strlen dir) rest false s2).trace
              | .error _ => [])) ∧
    (∀ pre u rest, um = pre ++ u :: rest →
      (mountlist K dir (strlen dir) pre false fixed.state).res = .ret true →
      K.stat (mountlist K dir (strlen dir) pre false fixed.state).state (dir ++ u)
        ≠ .ok true →
      user.res = .ret false ∧
      mountsOf user.trace =
        mountsOf (mountlist K dir (strlen dir) pre false fixed.state).trace) := by
  subst huser hfixed
  have hm := main_at_mounts K env s c optdir um dir s1 prog hargc hopts hdir hisdir hun hprog
  refine ⟨hm.1, hm.2, mountlist_mounts_sublist _ _ _ _ _ _,
    mountlist_mounts_initial _ _ _ _ _, mountlist_strict_mounts_all _ _ _ _ _, ?_,
    ?_, ?_, ?_, ?_⟩
  · exact (optloop_parsed env.getopt none [] optdir um hopts (by simp [USERMOUNTS_MAX])).1.trans
      (by simp)
  · intro pre p rest hp hreach hfit hmiss
    rw [hp]
    exact mountlist_skip_at K dir pre p rest s1 hreach hfit hmiss
  · intro pre p rest hp hreach hfit hsrc hdst
    rw [hp]
    exact mountlist_attempt_at K dir pre p rest true s1 hreach hfit hsrc hdst
  · intro pre u rest hu hreach hfit hsrc hdst
    subst hu
    exact mountlist_attempt_at K dir pre u rest false _ hreach hfit hsrc hdst
  · intro pre u rest hu hreach hmiss
    subst hu
    exact mountlist_strict_missing_at K dir pre u rest _ hreach hmiss

/-- Where a call of the privilege drop or hand-off sits in `front ++ tail`, when
`front` holds none: in `tail`. -/
theorem split_in_tail (front tail pre post : List Event) (x : Event)
    (hx : x.isDropOrExec = true) (hfront : ∀ e ∈ front, e.isDropOrExec = false)
    (h : front ++ tail = pre ++ x :: post) :
    ∃ a, pre = front ++ a ∧ tail = a ++ x :: post := by
  rcases List.append_eq_append_iff.mp h with ⟨a, h1, h2⟩ | ⟨b, h1, h2⟩
  · exact ⟨a, h1, h2⟩
  · cases b with
    | nil =>
      refine ⟨[], ?_, ?_⟩
      · simpa using h1.symm
      · simpa using h2.symm
    | cons y b =>
      simp only [List.cons_append, List.cons.injEq] at h2
      have hmem : x ∈ front := by
        rw [h1, h2.1]
        simp
      rw [hfront x hmem] at hx
      cases hx

/-- In every trace of `main`, a call of `setregid` comes right after a successful
`setreuid`; and a failing `setreuid` or `setregid` means status 1 and no
`execvp`. -/
theorem main_drop_order (K : Kernel σ) (env : Env) (s : σ) (c : Creds) :
    (∀ pre post a b r,
      (main K env s c).trace = pre ++ Event.setregid a b r :: post →
      ∃ pre1, pre = pre1 ++ [Event.setreuid c.ruid.val c.ruid.val .ok]) ∧
    (∀ a b e,
      Event.setreuid a b (.err e) ∈ (main K env s c).trace ∨
        Event.setregid a b (.err e) ∈ (main K env s c).trace →
      (main K env s c).outcome = .ret 1 ∧
        ∀ ev ∈ (main K env s c).trace, ev.isExecvp = false) := by
  obtain ⟨front, tail, htr, hfront, hshape⟩ := main_trace_shape K env s c
  have hex : ∀ ev ∈ front, ev.isExecvp = false := by
    intro ev hev
    have := hfront ev hev
    cases ev <;> simp_all [Event.isDropOrExec, Event.isExecvp]
  constructor
  · intro pre post a b r h
    rw [htr] at h
    obtain ⟨l, hl1, hl2⟩ := split_in_tail front tail pre post (Event.setregid a b r) rfl hfront h
    rcases hshape with ht | ⟨prog, _, ⟨e, ht, _⟩ | ⟨e, ht, _⟩ | ⟨e, ht, _⟩ | ⟨ht, _⟩⟩
    all_goals
      rw [ht] at hl2
      rcases l with _ | ⟨y1, _ | ⟨y2, _ | ⟨y3, _ | ⟨y4, l⟩⟩⟩⟩ <;>
        simp at hl2
    all_goals
      refine ⟨front, ?_⟩
      rw [hl1, ← hl2.1]
  · intro a b e h
    rw [htr] at h ⊢
    have nu : Event.setreuid a b (.err e) ∉ front :=
      not_mem_of_no_drop front hfront _ rfl
    have ng : Event.setregid a b (.err e) ∉ front :=
      not_mem_of_no_drop front hfront _ rfl
    rcases hshape with ht | ⟨prog, _, ⟨e1, ht, ho⟩ | ⟨e1, ht, ho⟩ | ⟨e1, ht, ho⟩ | ⟨ht, ho⟩⟩
    · subst ht
      simp [nu, ng] at h
    · subst ht
      refine ⟨ho, ?_⟩
      intro ev hev
      simp only [List.mem_append, List.mem_cons, List.mem_singleton, List.not_mem_nil,
        or_false] at hev
      rcases hev with hev | hev | hev
      · exact hex ev hev
      · subst hev; rfl
      · subst hev; rfl
    · subst ht
      refine ⟨ho, ?_⟩
      intro ev hev
      simp only [List.mem_append, List.mem_cons, List.mem_singleton, List.not_mem_nil,
        or_false] at hev
      rcases hev with hev | hev | hev | hev
      · exact hex ev hev
      · subst hev; rfl
      · subst hev; rfl
      · subst hev; rfl
    · subst ht
      simp [nu, ng] at h
    · subst ht
      simp [nu, ng] at h

/-- The exit status of `main`: it returns 0 exactly when there are no arguments
or the option loop returns 0 (the `-v` and `-h` short-circuits); its behaviour
is undefined exactly when it has unshared and `argv[optind]` is null; and every
run either returns 0, returns 1, has its process image replaced, or is
undefined. -/
theorem main_exit_status (K : Kernel σ) (env : Env) (s : σ) (c : Creds) :
    ((main K env s c).outcome = .ret 0 ↔
      env.argv.length < 2 ∨ ∃ tr, optloop env.getopt none [] = .exit 0 tr) ∧
    ((main K env s c).outcome = .undefined ↔
      2 ≤ env.argv.length ∧ env.argv.get? env.optind = none ∧
      ∃ optdir um dir s1, optloop env.getopt none [] = .parsed optdir um ∧
        altroot optdir env.VOIDNSRUN_DIR = some dir ∧ (isdir K s dir).1 = true ∧
        K.unshare s = .ok s1) ∧
    ((main K env s c).outcome = .ret 0 ∨ (main K env s c).outcome = .ret 1 ∨
      (main K env s c).outcome = .replaced ∨ (main K env s c).outcome = .undefined) := by
  apply main_cases K env s c (fun r =>
    (r.outcome = .ret 0 ↔
      env.argv.length < 2 ∨ ∃ tr, optloop env.getopt none [] = .exit 0 tr) ∧
    (r.outcome = .undefined ↔
      2 ≤ env.argv.length ∧ env.argv.get? env.optind = none ∧
      ∃ optdir um dir s1, optloop env.getopt none [] = .parsed optdir um ∧
        altroot optdir env.VOIDNSRUN_DIR = some dir ∧ (isdir K s dir).1 = true ∧
        K.unshare s = .ok s1) ∧
    (r.outcome = .ret 0 ∨ r.outcome = .ret 1 ∨
      r.outcome = .replaced ∨ r.outcome = .undefined))
  · intro h
    have : ¬ 2 ≤ env.argv.length := by omega
    simp [h, this]
  · intro status tr hargc h
    have h2 : 2 ≤ env.argv.length := by omega
    rcases optloop_exit _ _ _ _ _ h with ⟨hs, _⟩ | ⟨hs, _⟩
    · subst hs
      simp [h]
    · subst hs
      simp [h, hargc]
  · intro od um hargc h hd
    simp [h, hargc, hd]
  · intro od um dir hargc h hd hi
    simp [h, hargc, hd, hi]
  · intro od um dir e hargc h hd hi hu
    simp [h, hargc, hd, hi, hu]
  · intro od um dir s1 hargc h hd hi hu hp
    have h2 : 2 ≤ env.argv.length := by omega
    have hle : env.argv.length ≤ env.optind := List.get?_eq_none.mp hp
    simp [h, hargc, hd, hi, hu, hp, h2, hle]
  · intro od um dir s1 prog m1 m2 t1 t2 hargc h hd hi hu hp _ _ _ _
    have hlt : env.optind < env.argv.length := by
      by_contra hc
      rw [List.get?_eq_none.mpr (by omega)] at hp
      cases hp
    simp [h, hargc, hd, hi, hu, hp, hlt]

end Proofs

/-! ### The claims about whole runs, and the scenarios -/

/-- Claim C1: for every command line, environment and outcome of the system
calls, the trace of `main` is a part `front` that holds no `setreuid`,
`setregid` or `execvp`, followed by nothing or, when `front` is "the check of
the alternate root, then a successful `unshare`, then the successful fixed
batch, then the successful user batch" (`MountsApplied`), by one of: a failed `setreuid` (status 1); a
successful `setreuid` and a failed `setregid` (status 1); both successful and
then `execvp`, failed (status 1) or successful (process replaced). So `execvp`
is only called after all of these succeeded, in this order; every `setregid`
call comes right after a successful `setreuid`; and when `setreuid` or
`setregid` fails, `main` returns 1 and `execvp` is not called. -/
theorem main_drop_then_exec {σ : Type} (K : Kernel σ) (env : Env) (s : σ) (c : Creds) :
    (∃ front tail : List Event,
      (main K env s c).trace = front ++ tail ∧
      (∀ e ∈ front, e.isDropOrExec = false) ∧
      (tail = [] ∨
        ∃ prog, MountsApplied K env s prog front ∧
          ((∃ e, tail = [.setreuid c.ruid.val c.ruid.val (.err e),
                .stderr (.setreuidFailed e)] ∧
              (main K env s c).outcome = .ret 1) ∨
           (∃ e, tail = [.setreuid c.ruid.val c.ruid.val .ok,
                .setregid c.rgid.val c.rgid.val (.err e), .stderr (.setregidFailed e)] ∧
              (main K env s c).outcome = .ret 1) ∨
           (∃ e, tail = [.setreuid c.ruid.val c.ruid.val .ok,
                .setregid c.rgid.val c.rgid.val .ok,
                .execvp prog (env.argv.drop env.optind) (.err e),
                .stderr (.execvpFailed prog e)] ∧
              (main K env s c).outcome = .ret 1) ∨
           (tail = [.setreuid c.ruid.val c.ruid.val .ok,
                .setregid c.rgid.val c.rgid.val .ok,
                .execvp prog (env.argv.drop env.optind) .ok] ∧
              (main K env s c).outcome = .replaced)))) ∧
    (∀ pre post a b r,
      (main K env s c).trace = pre ++ Event.setregid a b r :: post →
      ∃ pre1, pre = pre1 ++ [Event.setreuid c.ruid.val c.ruid.val .ok]) ∧
    (∀ a b e,
      Event.setreuid a b (.err e) ∈ (main K env s c).trace ∨
        Event.setregid a b (.err e) ∈ (main K env s c).trace →
      (main K env s c).outcome = .ret 1 ∧
        ∀ ev ∈ (main K env s c).trace, ev.isExecvp = false) :=
  ⟨main_trace_shape K env s c, (main_drop_order K env s c).1, (main_drop_order K env s c).2⟩

/-- The scenario of claim C2: started set-uid root by user 1000 of group 1000,
`voidnsrun -r /alt /usr/bin/xbps-install -S` makes both calls with success and
ends with all six ids equal to 1000. -/
theorem main_drop_sets_all_ids_witness :
    Event.setreuid 1000 1000 .ok ∈
      (main (plainKernel scenarioDirs) envInstall [] suidRoot).trace ∧
    Event.setregid 1000 1000 .ok ∈
      (main (plainKernel scenarioDirs) envInstall [] suidRoot).trace ∧
    (main (plainKernel scenarioDirs) envInstall [] suidRoot).creds =
      { ruid := 1000, euid := 1000, suid := 1000,
        rgid := 1000, egid := 1000, sgid := 1000 } :=
  ⟨by decide, by decide,
    main_drop_sets_all_ids (plainKernel scenarioDirs) envInstall [] suidRoot
      (by decide) (by decide)⟩

/-- A scenario of claim C4: the batch `/usr`, `/opt`, `/var` under `/alt`, where
`/alt/opt` does not exist, fails at `/opt` after mounting `/usr` only. -/
theorem mountlist_missing_source_fails_witness :
    (plainKernel scenarioDirs).stat [("/alt/usr".toList, "/usr".toList)]
      ("/alt".toList ++ "/opt".toList) = .fail ENOENT ∧
    (mountlist (plainKernel scenarioDirs) "/alt".toList (strlen "/alt".toList)
      (["/usr".toList] ++ "/opt".toList :: ["/var".toList]) false []).res = .ret false ∧
    mountsOf (mountlist (plainKernel scenarioDirs) "/alt".toList (strlen "/alt".toList)
      (["/usr".toList] ++ "/opt".toList :: ["/var".toList]) false []).trace =
        [("/alt/usr".toList, "/usr".toList)] :=
  ⟨by decide,
   (mountlist_missing_source_fails (plainKernel scenarioDirs) "/alt".toList
      ["/usr".toList] "/opt".toList ["/var".toList] [] (by decide) (by decide)).1,
   (mountlist_missing_source_fails (plainKernel scenarioDirs) "/alt".toList
      ["/usr".toList] "/opt".toList ["/var".toList] [] (by decide) (by decide)).2.2.1.trans
      (by decide)⟩

/-- A scenario of claim C5: with `ignore_missing`, the batch `/usr`, `/opt`,
`/var` under `/alt`, where `/alt/opt` does not exist, succeeds with the mounts
of the batch `/usr`, `/var`. -/
theorem mountlist_missing_source_skipped_witness :
    (mountlist (plainKernel scenarioDirs) "/alt".toList (strlen "/alt".toList)
      (["/usr".toList] ++ "/opt".toList :: ["/var".toList]) true []).res = .ret true ∧
    mountsOf (mountlist (plainKernel scenarioDirs) "/alt".toList (strlen "/alt".toList)
      (["/usr".toList] ++ "/opt".toList :: ["/var".toList]) true []).trace =
        [("/alt/usr".toList, "/usr".toList), ("/alt/var".toList, "/var".toList)] :=
  ⟨(mountlist_missing_source_skipped (plainKernel scenarioDirs) "/alt".toList
      ["/usr".toList] "/opt".toList ["/var".toList] [] (by decide) (by decide)
      (by decide)).1.1.trans (by decide),
   (mountlist_missing_source_skipped (plainKernel scenarioDirs) "/alt".toList
      ["/usr".toList] "/opt".toList ["/var".toList] [] (by decide) (by decide)
      (by decide)).1.2.2.1.trans (by decide)⟩

/-- A scenario of claim C6: under `/alt`, the entry `longPath` (4 + 4093
characters) ends the batch `/usr`, `longPath`, `/var` with `false` right after
the work for `/usr`: one mount, and no `stat` of the long path. -/
theorem mountlist_path_too_long_witness :
    strlen "/alt".toList + strlen longPath ≥ PATH_MAX ∧
    (mountlist (plainKernel scenarioDirs) "/alt".toList (strlen "/alt".toList)
      (["/usr".toList] ++ longPath :: ["/var".toList]) false []).res = .ret false ∧
    (mountlist (plainKernel scenarioDirs) "/alt".toList (strlen "/alt".toList)
      (["/usr".toList] ++ longPath :: ["/var".toList]) false []).trace =
        [.stat "/alt/usr".toList (.ok true), .stat "/usr".toList (.ok true),
         .mount "/alt/usr".toList "/usr".toList .ok,
         .stderr (.pathTooLarge "/alt".toList longPath)] :=
  have hlong : strlen "/alt".toList + strlen longPath ≥ PATH_MAX := by
    rw [strlen_longPath]; decide
  have h := (mountlist_path_too_long (plainKernel scenarioDirs) "/alt".toList
      ["/usr".toList] longPath ["/var".toList] false [] (by decide) hlong).1
  ⟨hlong, by rw [h], by rw [h]; rfl⟩

/-- A scenario of claim C7: with nine `-m` options `main` returns 1 at the ninth,
having only written the message. -/
theorem usermounts_at_most_eight_witness :
    main (plainKernel scenarioDirs) envNineMounts [] suidRoot =
      ⟨.ret 1, [], suidRoot, [.stderr .tooManyUserMounts]⟩ :=
  ((usermounts_at_most_eight (plainKernel scenarioDirs) envNineMounts [] suidRoot).2.2
    (nineMounts.take 8) "/m9".toList [] (by decide) (by decide) (by decide)
    (by decide)).1

/-- The scenarios of claim C8. With `/alt`, `/usr/bin/xbps-install` and no user
mount the mounts are `/alt/usr` onto `/usr`, `/alt/var` onto `/var`, `/alt/etc`
onto `/etc`; with `/alt`, `/usr/bin/vi` and the user mount `/home/user/project`
they are `/alt/usr` onto `/usr`, `/alt/var/db/xbps` onto `/var/db/xbps`,
`/alt/etc/xbps.d` onto `/etc/xbps.d`, then `/alt/home/user/project` onto
`/home/user/project`. And under an alternate root that only has `/usr`, the
same command line mounts `/alt/usr` onto `/usr`, passes over `/var/db/xbps`
(its source is missing: the fixed batch still succeeds, as the batch without
that entry does), then fails on the missing source of the user mount, without a
further mount and with status 1. -/
theorem main_mount_order_witness :
    mountsOf (main (plainKernel scenarioDirs) envInstall [] suidRoot).trace =
      [("/alt/usr".toList, "/usr".toList), ("/alt/var".toList, "/var".toList),
       ("/alt/etc".toList, "/etc".toList)] ∧
    mountsOf (main (plainKernel scenarioDirs) envVi [] suidRoot).trace =
      [("/alt/usr".toList, "/usr".toList),
       ("/alt/var/db/xbps".toList, "/var/db/xbps".toList),
       ("/alt/etc/xbps.d".toList, "/etc/xbps.d".toList),
       ("/alt/home/user/project".toList, "/home/user/project".toList)] ∧
    (plainKernel sparseDirs).stat [("/alt/usr".toList, "/usr".toList)]
      ("/alt".toList ++ "/var/db/xbps".toList) = .fail ENOENT ∧
    (plainKernel sparseDirs).stat [("/alt/usr".toList, "/usr".toList)]
      ("/alt".toList ++ "/home/user/project".toList) = .fail ENOENT ∧
    mountsOf (main (plainKernel sparseDirs) envVi [] suidRoot).trace =
      [("/alt/usr".toList, "/usr".toList)] ∧
    (main (plainKernel sparseDirs) envVi [] suidRoot).outcome = .ret 1 ∧
    (mountlist (plainKernel sparseDirs) "/alt".toList (strlen "/alt".toList)
      (mountpoints "/usr/bin/vi".toList) true []).res = .ret true ∧
    (mountlist (plainKernel sparseDirs) "/alt".toList (strlen "/alt".toList)
      ["/home/user/project".toList] false
      (mountlist (plainKernel sparseDirs) "/alt".toList (strlen "/alt".toList)
        (mountpoints "/usr/bin/vi".toList) true []).state).res = .ret false := by
  have h1 := main_mount_order (plainKernel scenarioDirs) envInstall [] suidRoot
    (some "/alt".toList) [] "/alt".toList [] "/usr/bin/xbps-install".toList _ _
    (by decide) (by decide) (by decide) (by decide) rfl (by decide) rfl rfl
  have h2 := main_mount_order (plainKernel scenarioDirs) envVi [] suidRoot
    (some "/alt".toList) ["/home/user/project".toList] "/alt".toList []
    "/usr/bin/vi".toList _ _
    (by decide) (by decide) (by decide) (by decide) rfl (by decide) rfl rfl
  have h3 := main_mount_order (plainKernel sparseDirs) envVi [] suidRoot
    (some "/alt".toList) ["/home/user/project".toList] "/alt".toList []
    "/usr/bin/vi".toList _ _
    (by decide) (by decide) (by decide) (by decide) rfl (by decide) rfl rfl
  have hskip := h3.2.2.2.2.2.2.1 ["/usr".toList] "/var/db/xbps".toList
    ["/etc/xbps.d".toList] (by decide) (by decide) (by decide) (by decide)
  have hfail := h3.2.2.2.2.2.2.2.2.2 [] "/home/user/project".toList [] rfl
    (by decide) (by decide)
  exact ⟨h1.1.trans (by decide), h2.1.trans (by decide), by decide, by decide,
    h3.1.trans (by decide), h3.2.1 (Or.inr (by rw [hfail.1]; decide)),
    hskip.2.trans (by decide), hfail.1⟩

/-- Counterexample to claim C8 as stated: under the alternate root `deepRoot`
(4084 characters, a directory, with `/usr` and `/etc/xbps.d`) and for the program
`/usr/bin/vi`, the source of the profile entry `/var/db/xbps` is missing while
source and mount point of the next entry `/etc/xbps.d` are directories. The
missing source is not passed over: `/var/db/xbps` fails the length check, so
the only mount attempted is `deepRoot ++ "/usr"` onto `/usr`, `/etc/xbps.d` is
never mounted, and `main` returns 1. -/
theorem long_root_entry_not_passed_over :
    (plainKernel deepDirs).stat [(deepRoot ++ "/usr".toList, "/usr".toList)]
      (deepRoot ++ "/var/db/xbps".toList) = .fail ENOENT ∧
    (plainKernel deepDirs).stat [(deepRoot ++ "/usr".toList, "/usr".toList)]
      (deepRoot ++ "/etc/xbps.d".toList) = .ok true ∧
    (plainKernel deepDirs).stat [(deepRoot ++ "/usr".toList, "/usr".toList)]
      "/etc/xbps.d".toList = .ok true ∧
    mountsOf (main (plainKernel deepDirs) envDeep [] suidRoot).trace =
      [(deepRoot ++ "/usr".toList, "/usr".toList)] ∧
    (main (plainKernel deepDirs) envDeep [] suidRoot).outcome = .ret 1 := by
  have hm := main_at_mounts (plainKernel deepDirs) envDeep [] suidRoot
    (some deepRoot) [] deepRoot [] "/usr/bin/vi".toList (by decide) rfl rfl
    (isdir_true _ _ _ (by simp [plainKernel, deepDirs])) rfl rfl
  refine ⟨?_, ?_, ?_, ?_, ?_⟩
  · have h4 := deepRoot_append_ne [] [] (by decide)
    simp only [List.append_nil] at h4
    simp [plainKernel, deepDirs, h4]
    exact ⟨deepRoot_append_ne _ _ (by decide), deepRoot_append_ne _ _ (by decide)⟩
  · simp [plainKernel, deepDirs]
  · simp [plainKernel, deepDirs]
  · rw [hm.1, deep_fixed_batch.1, deep_fixed_batch.2]
    rfl
  · exact hm.2 (Or.inl (by rw [deep_fixed_batch.2]; decide))

/-- Claim C9 at the command line `voidnsrun -r /alt` (options, no program), with
`/alt` a directory and `unshare` successful: `main` does not return a status. It
hands the null pointer `argv[optind]` to `isxbpscommand`, whose `strcmp`
dereferences it; the last thing it did is the successful `unshare`. -/
theorem main_without_program :
    envNoProgram.argv.get? envNoProgram.optind = none ∧
    (main (plainKernel scenarioDirs) envNoProgram [] suidRoot).outcome = .undefined ∧
    (main (plainKernel scenarioDirs) envNoProgram [] suidRoot).trace =
      [.stat "/alt".toList (.ok true), .unshare .ok] := by
  decide

/-- A scenario of claim C10: under an alternate root that only has `/usr`, the
fixed batch of an ordinary program skips `/var/db/xbps` and `/etc/xbps.d` and
writes "stat: No such file or directory" once for each. -/
theorem mountlist_skip_diagnostics_witness :
    stderrOf (mountlist (plainKernel sparseDirs) "/alt".toList (strlen "/alt".toList)
      ("/var/db/xbps".toList :: ["/etc/xbps.d".toList]) true []).trace =
        [.statFailed ENOENT, .statFailed ENOENT] :=
  (mountlist_skip_diagnostics (plainKernel sparseDirs) "/alt".toList
    "/var/db/xbps".toList ["/etc/xbps.d".toList] [] (by decide) (by decide)).trans
    (by decide)

end Voidnsrun
